import Mathlib

/-!
A shallow embedding of the `coala` CSV engine (files `col_parser.rs`,
`statistics.rs`, `csv_parser.rs`) together with proofs about its
type-inference cascade, column container, statistics and caching layers.

Modelling conventions:
* `f64` values are modelled as rationals (`ℚ`), i.e. the NaN-free,
  infinitely-precise fragment of the doubles; `i64` values as integers
  (parsing enforces the 64-bit range).
* `usize` arithmetic wraps (release-profile semantics); the code relies on
  the wrap (`index == usize::MAX` after a `- 1`), so it is modelled
  explicitly with `usizeSub`.
* Paths on which the Rust program aborts — a `todo!()`, an out-of-bounds
  `Vec` index — are modelled by the explicit error `Err.panic`.
* `RefCell` interior mutability (the sorted-snapshot memo) and `&mut self`
  (the statistics cache) are modelled by state passing: the operation
  returns the updated column / frame.
* The external `datetime` crate is not part of the repository, so the two
  datetime parsers (`Datetime::from_str`, `Datetime::try_guess`) and the
  datetime payload type `D` are parameters of the embedding.
-/

namespace Coala

/-- `usize::MAX`. -/
def USIZE_MAX : Nat := 2 ^ 64 - 1

/-- Wrapping subtraction on `usize` (release-profile semantics; the source
relies on the wrap: it compares the result of `... - 1` with `usize::MAX`). -/
def usizeSub (a b : Nat) : Nat := (a % 2 ^ 64 + (2 ^ 64 - b % 2 ^ 64)) % 2 ^ 64

/-- `as usize` applied to a nonnegative finite float value: truncate toward
zero, saturating at `usize::MAX` (Rust float-to-int casts saturate). -/
def f64AsUsize (x : ℚ) : Nat := min (max ⌊x⌋ 0).toNat USIZE_MAX

/-- Wrapping `i64` arithmetic (release-profile semantics, like the `usize`
model above): reduce a mathematical integer into `[-2^63, 2^63)` by
two's-complement wrap-around. -/
def i64Wrap (x : ℤ) : ℤ := (x + 2 ^ 63) % 2 ^ 64 - 2 ^ 63

/-- The engine's error surface: the variants of `StatisticsError`,
`ColParseError` and `ColParserError`, the anonymous `miette!` parse errors,
plus `panic` for paths on which the process aborts. -/
inductive Err where
  | invalidQuantile (value : ℚ)
  | emptyColumn
  | invalidType (col : String)
  | invalidColType (name : String)
  | outOfRange
  | parseError (value : String)
  | unexpectedEOF
  | missingCol (name : String)
  | panic
  deriving DecidableEq, Repr

instance {ε α : Type} [DecidableEq ε] [DecidableEq α] :
    DecidableEq (Except ε α) := fun x y =>
  match x, y with
  | Except.ok a, Except.ok b =>
      decidable_of_iff (a = b) ⟨congrArg Except.ok, Except.ok.inj⟩
  | Except.ok _, Except.error _ => isFalse (fun h => Except.noConfusion h)
  | Except.error _, Except.ok _ => isFalse (fun h => Except.noConfusion h)
  | Except.error a, Except.error b =>
      decidable_of_iff (a = b) ⟨congrArg Except.error, Except.error.inj⟩

/-- `DataValue`: the uniform tagged result type of all accessors. -/
inductive DataValue (D : Type) where
  | float (v : ℚ)
  | integer (v : ℤ)
  | unsigned (v : ℕ)
  | string (s : String)
  | datetime (d : D)
  | null
  deriving DecidableEq

/-- `CsvCol<T>`: name, values, element count, and the `RefCell`-held sorted
snapshot cache `Option<(Vec<T>, usize)>`. -/
structure CsvCol (T : Type) where
  col_name : String
  values : List T
  n_elements : Nat
  sorted_values : Option (List T × Nat)
  deriving DecidableEq

/-- `slice::sort_unstable_by` with a comparator, modelled as an insertion
sort that keeps `a` before `b` whenever the comparator does not answer
`Greater`.  For the total comparators the source uses, the result is the
unique ascending-sorted permutation, which is what `sort_unstable_by`
computes. -/
def rustSortBy {T : Type} (cmp : T → T → Ordering) (l : List T) : List T :=
  List.insertionSort (fun a b => cmp a b ≠ Ordering.gt) l

/-- The comparator used by the source: `partial_cmp(..).unwrap_or(Equal)`
for floats and `Ord::cmp` for integers.  On the NaN-free models `ℚ` and `ℤ`
the partial comparison is total, so both collapse to the order's compare. -/
def linCmp {T : Type} [LinearOrder T] (a b : T) : Ordering :=
  if a < b then Ordering.lt else if a = b then Ordering.eq else Ordering.gt

/-- `CsvCol::get_sorted`: return the cached copy when its tag matches
`n_elements`, otherwise sort a fresh copy, store it tagged with its length,
and return it.  The interior mutation is the returned column. -/
def CsvCol.get_sorted {T : Type} (cmp : T → T → Ordering) (col : CsvCol T) :
    List T × CsvCol T :=
  match col.sorted_values with
  | some (cached, len) =>
      if len = col.n_elements then (cached, col)
      else
        let sorted := rustSortBy cmp col.values
        (sorted, { col with sorted_values := some (sorted, sorted.length) })
  | none =>
      let sorted := rustSortBy cmp col.values
      (sorted, { col with sorted_values := some (sorted, sorted.length) })

/-- `Vec` indexing `v[i]`: panics when out of bounds. -/
def listIndex {T : Type} (l : List T) (i : Nat) : Except Err T :=
  match l.get? i with
  | some v => Except.ok v
  | none => Except.error Err.panic

/-- `Statistics for CsvCol<f64>::mean`: sum divided by `values.len()`. -/
def CsvCol.meanF {D : Type} (col : CsvCol ℚ) : Except Err (DataValue D) :=
  if col.n_elements = 0 then Except.error Err.emptyColumn
  else Except.ok (DataValue.float (col.values.sum / (col.values.length : ℚ)))

/-- `Statistics for CsvCol<f64>::median`.  Note the source's parity branches:
the even case returns the single element `col[len/2]`, the odd case averages
`col[len/2]` and `col[len/2 - 1]`; `len/2 - 1` is a wrapping `usize`
subtraction, so a singleton column indexes at `usize::MAX` and panics. -/
def CsvCol.medianF {D : Type} (col : CsvCol ℚ) : Except Err (DataValue D) :=
  if col.n_elements = 0 then Except.error Err.emptyColumn
  else
    let sorted := (col.get_sorted linCmp).1
    if col.n_elements % 2 = 0 then
      (listIndex sorted (sorted.length / 2)).map (fun v => DataValue.float v)
    else do
      let a ← listIndex sorted (sorted.length / 2)
      let b ← listIndex sorted (usizeSub (sorted.length / 2) 1)
      Except.ok (DataValue.float ((1 : ℚ) / 2 * (a + b)))

/-- `Statistics for CsvCol<f64>::quantile`.  `(n - 1) as f64` wraps for
`n = 0`, producing `usize::MAX` before the float cast. -/
def CsvCol.quantileF {D : Type} (col : CsvCol ℚ) (quantile : ℚ) :
    Except Err (DataValue D) :=
  if ¬(0 ≤ quantile ∧ quantile < 1) then
    Except.error (Err.invalidQuantile quantile)
  else
    let sorted := (col.get_sorted linCmp).1
    let n := sorted.length
    let nm1 : ℚ := (usizeSub n 1 : ℕ)
    let index : ℚ := quantile * nm1
    let index := if index < 0 then 0 else if index > nm1 then nm1 else index
    let lower_idx := f64AsUsize index
    let upper_idx := lower_idx + 1
    if upper_idx ≥ n then
      (listIndex sorted lower_idx).map (fun v => DataValue.float v)
    else do
      let fraction := index - (lower_idx : ℚ)
      let lower_val ← listIndex sorted lower_idx
      let upper_val ← listIndex sorted upper_idx
      Except.ok (DataValue.float (lower_val * (1 - fraction) + upper_val * fraction))

/-- `Statistics for CsvCol<f64>::stddev` is `todo!()`: it unconditionally
panics. -/
def CsvCol.stddevF {D : Type} (_col : CsvCol ℚ) : Except Err (DataValue D) :=
  Except.error Err.panic

/-- `Statistics for CsvCol<i64>::mean`: values cast to `f64`, summed, divided
by `n_elements`; always a `Float` result. -/
def CsvCol.meanI {D : Type} (col : CsvCol ℤ) : Except Err (DataValue D) :=
  if col.n_elements = 0 then Except.error Err.emptyColumn
  else
    Except.ok (DataValue.float
      ((col.values.map (fun x => (x : ℚ))).sum / (col.n_elements : ℚ)))

/-- `Statistics for CsvCol<i64>::median`: sorts a fresh copy with
`sort_unstable`, returns `col[len/2]` when the count is odd, and
`col[len/2] / 2 + col[len/2 - 1]` (truncating `i64` division; the `i64`
addition wraps on overflow in the release profile) when even. -/
def CsvCol.medianI {D : Type} (col : CsvCol ℤ) : Except Err (DataValue D) :=
  if col.n_elements = 0 then Except.error Err.emptyColumn
  else
    let sorted := rustSortBy linCmp col.values
    if ¬ col.n_elements % 2 = 0 then
      (listIndex sorted (sorted.length / 2)).map (fun v => DataValue.integer v)
    else do
      let a ← listIndex sorted (sorted.length / 2)
      let b ← listIndex sorted (usizeSub (sorted.length / 2) 1)
      Except.ok (DataValue.integer (i64Wrap (Int.tdiv a 2 + b)))

/-- `Statistics for CsvCol<i64>::quantile`: nearest rank
`ceil(q * n) - 1` (wrapping subtraction; the wrapped `usize::MAX` case is
sent to `0`, and the result is clamped above by `n - 1`). -/
def CsvCol.quantileI {D : Type} (col : CsvCol ℤ) (quantile : ℚ) :
    Except Err (DataValue D) :=
  if ¬(0 ≤ quantile ∧ quantile < 1) then
    Except.error (Err.invalidQuantile quantile)
  else
    let sorted := (col.get_sorted linCmp).1
    let n := sorted.length
    let index := usizeSub (f64AsUsize (⌈quantile * (n : ℚ)⌉ : ℚ)) 1
    let index := if index = USIZE_MAX then 0
      else if index ≥ n then n - 1 else index
    (listIndex sorted index).map (fun v => DataValue.integer v)

/-- `Statistics for CsvCol<i64>::stddev` is `todo!()`: it unconditionally
panics. -/
def CsvCol.stddevI {D : Type} (_col : CsvCol ℤ) : Except Err (DataValue D) :=
  Except.error Err.panic

/-- The numeric value of a run of ASCII digits. -/
def digitsVal (ds : List Char) : ℕ :=
  ds.foldl (fun acc c => acc * 10 + (c.toNat - '0'.toNat)) 0

/-- `str::parse::<i64>` (`from_str_radix`, base 10): optional sign, one or
more ASCII digits, value within the `i64` range (the accumulating overflow
check is equivalent to the range check on the exact value). -/
def parseI64 (s : String) : Option ℤ :=
  let signAndDigits : Bool × List Char :=
    match s.data with
    | '+' :: t => (false, t)
    | '-' :: t => (true, t)
    | t => (false, t)
  let ds := signAndDigits.2
  if ds = [] then none
  else if ds.all Char.isDigit then
    let v : ℤ := if signAndDigits.1 then -(digitsVal ds : ℤ) else (digitsVal ds : ℤ)
    if -(2 ^ 63) ≤ v ∧ v ≤ 2 ^ 63 - 1 then some v else none
  else none

/-- Split a character list into its leading run of ASCII digits and the
rest. -/
def digitSpan : List Char → List Char × List Char
  | c :: t =>
      if c.isDigit then
        let r := digitSpan t
        (c :: r.1, r.2)
      else ([], c :: t)
  | [] => ([], [])

/-- The exponent tail of the float grammar: optional sign, then one or more
digits. -/
def expDigitsOk (cs : List Char) : Bool :=
  let t : List Char :=
    match cs with
    | '+' :: t => t
    | '-' :: t => t
    | t => t
  t ≠ [] && t.all Char.isDigit

/-- The decimal grammar of `f64::from_str` after the sign: `digits`,
`digits . digits?` or `. digits`, optionally followed by `[eE] [+-]? digits`;
at least one mantissa digit is required. -/
def f64DecimalOk (cs : List Char) : Bool :=
  let p := digitSpan cs
  match p.2 with
  | [] => p.1 ≠ []
  | '.' :: r =>
      let q := digitSpan r
      (p.1 ≠ [] || q.1 ≠ []) &&
        (match q.2 with
         | [] => true
         | 'e' :: r2 => expDigitsOk r2
         | 'E' :: r2 => expDigitsOk r2
         | _ => false)
  | 'e' :: r2 => p.1 ≠ [] && expDigitsOk r2
  | 'E' :: r2 => p.1 ≠ [] && expDigitsOk r2
  | _ => false

/-- ASCII lowercasing, for the case-insensitive special float values. -/
def asciiLower (c : Char) : Char :=
  if 'A' ≤ c ∧ c ≤ 'Z' then Char.ofNat (c.toNat + 32) else c

/-- The special float values `inf`, `infinity`, `nan`
(ASCII-case-insensitive). -/
def f64SpecialOk (cs : List Char) : Bool :=
  let l := cs.map asciiLower
  l = "inf".data || l = "infinity".data || l = "nan".data

/-- Acceptance of `f64::from_str`: optional sign, then the decimal grammar or
a special value. -/
def f64Accepts (s : String) : Bool :=
  let cs : List Char :=
    match s.data with
    | '+' :: t => t
    | '-' :: t => t
    | t => t
  f64DecimalOk cs || f64SpecialOk cs

/-- Value of the exponent tail. -/
def expVal (cs : List Char) : ℤ :=
  match cs with
  | '+' :: t => (digitsVal t : ℤ)
  | '-' :: t => -(digitsVal t : ℤ)
  | t => (digitsVal t : ℤ)

/-- The exact rational value of an accepted decimal float literal.  The
non-finite specials (`inf`/`nan`), unrepresentable in `ℚ`, are mapped to `0`;
no claim reads the parsed payload of an inferred float column. -/
def f64Value (s : String) : ℚ :=
  let signAndRest : Bool × List Char :=
    match s.data with
    | '+' :: t => (false, t)
    | '-' :: t => (true, t)
    | t => (false, t)
  let cs := signAndRest.2
  if f64SpecialOk cs then 0
  else
    let p := digitSpan cs
    let fracAndRest : List Char × List Char :=
      match p.2 with
      | '.' :: r => digitSpan r
      | r => ([], r)
    let e : ℤ :=
      match fracAndRest.2 with
      | 'e' :: r2 => expVal r2
      | 'E' :: r2 => expVal r2
      | _ => 0
    let mant : ℚ := (digitsVal p.1 : ℚ) +
      (digitsVal fracAndRest.1 : ℚ) / ((10 : ℚ) ^ fracAndRest.1.length)
    let v := mant * (10 : ℚ) ^ e
    if signAndRest.1 then -v else v

/-- `f64::from_str`, modelled over `ℚ` (rounding to the nearest double is not
modelled; only acceptance matters for the claims). -/
def parseF64 (s : String) : Option ℚ :=
  if f64Accepts s then some (f64Value s) else none

/-- `String::from_str` is infallible. -/
def parseString (s : String) : Option String := some s

/-- The per-cell loop shared by `CsvCol::from_str_list` and
`CsvCol::as_datetime`: parse every cell, aborting at the first failure with
the `miette!` parse error naming the offending cell. -/
def parseAll {T : Type} (parse : String → Option T) :
    List String → Except Err (List T)
  | [] => Except.ok []
  | line :: rest =>
      match parse line with
      | some t => (parseAll parse rest).map (fun ts => t :: ts)
      | none => Except.error (Err.parseError line)

/-- `CsvCol::from_str_list`: parse every cell; on success the column carries
`n_elements = values.len()` and an empty sorted cache. -/
def fromStrList {T : Type} (parse : String → Option T) (elements : List String)
    (name : String) : Except Err (CsvCol T) :=
  (parseAll parse elements).map (fun values =>
    { col_name := name, values := values, n_elements := values.length,
      sorted_values := none })

/-- `CsvCol::as_datetime`: parse every cell with `Datetime::from_str` when a
format is given, otherwise with `Datetime::try_guess`.  The external
`datetime` crate is not part of this repository, so both parsers are
parameters. -/
def asDatetime {D : Type} (dtFromStr : String → String → Option D)
    (dtTryGuess : String → Option D) (elements : List String) (name : String)
    (format : Option String) : Except Err (CsvCol D) :=
  let parse : String → Option D := fun line =>
    match format with
    | some f => dtFromStr line f
    | none => dtTryGuess line
  (parseAll parse elements).map (fun values =>
    { col_name := name, values := values, n_elements := values.length,
      sorted_values := none })

/-- `ColConfig`: per-column datetime forcing. -/
structure ColConfig where
  date_format : Option String
  as_date : Bool
  deriving DecidableEq

/-- `ColType`: the closed tagged union of the four column kinds. -/
inductive ColType (D : Type) where
  | float (c : CsvCol ℚ)
  | integer (c : CsvCol ℤ)
  | string (c : CsvCol String)
  | datetime (c : CsvCol D)
  deriving DecidableEq

/-- `ColType::as_date`: `Some(parse attempt)` exactly when the config forces
datetime parsing. -/
def ColType.as_date {D : Type} (dtFromStr : String → String → Option D)
    (dtTryGuess : String → Option D) (elements : List String) (name : String)
    (config : ColConfig) : Option (Except Err (CsvCol D)) :=
  if config.as_date then
    some (asDatetime dtFromStr dtTryGuess elements name config.date_format)
  else none

/-- `ColType::from_values`: the forced-datetime path first (its parse error
is propagated unchanged by `let col = col?;`), then the `try_type!` cascade
Integer → Float → String; the trailing `InvalidColType` error is reached only
if all three candidates fail. -/
def ColType.from_values {D : Type} (dtFromStr : String → String → Option D)
    (dtTryGuess : String → Option D) (elements : List String) (name : String)
    (config : Option ColConfig) : Except Err (ColType D) :=
  let forced : Option (Except Err (CsvCol D)) :=
    match config with
    | some cfg => ColType.as_date dtFromStr dtTryGuess elements name cfg
    | none => none
  match forced with
  | some (Except.ok col) => Except.ok (ColType.datetime col)
  | some (Except.error e) => Except.error e
  | none =>
      match fromStrList parseI64 elements name with
      | Except.ok col => Except.ok (ColType.integer col)
      | Except.error _ =>
        match fromStrList parseF64 elements name with
        | Except.ok col => Except.ok (ColType.float col)
        | Except.error _ =>
          match fromStrList parseString elements name with
          | Except.ok col => Except.ok (ColType.string col)
          | Except.error _ => Except.error (Err.invalidColType name)

/-- `ColType::name`. -/
def ColType.name {D : Type} : ColType D → String
  | ColType.float c => c.col_name
  | ColType.integer c => c.col_name
  | ColType.string c => c.col_name
  | ColType.datetime c => c.col_name

/-- The element count of the column under a variant. -/
def ColType.count {D : Type} : ColType D → Nat
  | ColType.float c => c.n_elements
  | ColType.integer c => c.n_elements
  | ColType.string c => c.n_elements
  | ColType.datetime c => c.n_elements

/-- `ColType::mean`: numeric dispatch; `InvalidType` otherwise. -/
def ColType.mean {D : Type} : ColType D → Except Err (DataValue D)
  | ColType.float c => c.meanF
  | ColType.integer c => c.meanI
  | col => Except.error (Err.invalidType col.name)

/-- `ColType::median`. -/
def ColType.median {D : Type} : ColType D → Except Err (DataValue D)
  | ColType.float c => c.medianF
  | ColType.integer c => c.medianI
  | col => Except.error (Err.invalidType col.name)

/-- `ColType::quantile`. -/
def ColType.quantile {D : Type} (col : ColType D) (q : ℚ) :
    Except Err (DataValue D) :=
  match col with
  | ColType.float c => c.quantileF q
  | ColType.integer c => c.quantileI q
  | col => Except.error (Err.invalidType col.name)

/-- `ColType::stddev`. -/
def ColType.stddev {D : Type} : ColType D → Except Err (DataValue D)
  | ColType.float c => c.stddevF
  | ColType.integer c => c.stddevI
  | col => Except.error (Err.invalidType col.name)

/-- `ColType::data_as_value`: in-range access yields the matching `DataValue`
variant, otherwise `OutOfRange`. -/
def ColType.data_as_value {D : Type} (col : ColType D) (index : Nat) :
    Except Err (DataValue D) :=
  match col with
  | ColType.float c =>
      match c.values.get? index with
      | some v => Except.ok (DataValue.float v)
      | none => Except.error Err.outOfRange
  | ColType.integer c =>
      match c.values.get? index with
      | some v => Except.ok (DataValue.integer v)
      | none => Except.error Err.outOfRange
  | ColType.string c =>
      match c.values.get? index with
      | some v => Except.ok (DataValue.string v)
      | none => Except.error Err.outOfRange
  | ColType.datetime c =>
      match c.values.get? index with
      | some v => Except.ok (DataValue.datetime v)
      | none => Except.error Err.outOfRange

/-- The per-column cache entry `Statistics { mean, median, std_dev }`. -/
structure StatsEntry (D : Type) where
  mean : Option (DataValue D)
  median : Option (DataValue D)
  std_dev : Option (DataValue D)
  deriving DecidableEq

/-- `Statistics::default()`. -/
def StatsEntry.empty {D : Type} : StatsEntry D :=
  { mean := none, median := none, std_dev := none }

/-- `Csv`: columns, dimensions, header and the statistics cache
(`HashMap<String, Statistics>`, modelled as an association list with unique
keys). -/
structure Csv (D : Type) where
  cols : List (ColType D)
  n_cols : Nat
  n_rows : Nat
  header : List String
  cache : List (String × StatsEntry D)
  deriving DecidableEq

/-- `HashMap::get`. -/
def cacheLookup {D : Type} (cache : List (String × StatsEntry D))
    (name : String) : Option (StatsEntry D) :=
  match cache.find? (fun e => e.1 == name) with
  | some e => some e.2
  | none => none

/-- `HashMap::entry(name).or_default()` followed by a field update. -/
def cacheUpdate {D : Type} (f : StatsEntry D → StatsEntry D) (name : String) :
    List (String × StatsEntry D) → List (String × StatsEntry D)
  | [] => [(name, f StatsEntry.empty)]
  | e :: rest =>
      if e.1 = name then (e.1, f e.2) :: rest
      else e :: cacheUpdate f name rest

/-- `Csv::get_col`: the first column whose name matches, else `MissingCol`.
(The `ColViewer` wrapper is a plain reference and is elided.) -/
def Csv.get_col {D : Type} (c : Csv D) (name : String) :
    Except Err (ColType D) :=
  match c.cols.find? (fun col => col.name == name) with
  | some col => Except.ok col
  | none => Except.error (Err.missingCol name)

/-- `Csv::mean`, as expanded from the `statistics! {mean median}` macro:
serve from the cache when the slot is filled, otherwise compute on the
column, store a clone under `col.name()` and return it.  The `&mut self`
update is the returned frame. -/
def Csv.mean {D : Type} (c : Csv D) (name : String) :
    Except Err (DataValue D × Csv D) :=
  let hit : Option (DataValue D) :=
    match cacheLookup c.cache name with
    | some entry => entry.mean
    | none => none
  match hit with
  | some v => Except.ok (v, c)
  | none => do
      let col ← c.get_col name
      let v ← col.mean
      Except.ok (v, { c with
        cache := cacheUpdate (fun e => { e with mean := some v }) col.name c.cache })

/-- `Csv::median`, the second expansion of the `statistics!` macro. -/
def Csv.median {D : Type} (c : Csv D) (name : String) :
    Except Err (DataValue D × Csv D) :=
  let hit : Option (DataValue D) :=
    match cacheLookup c.cache name with
    | some entry => entry.median
    | none => none
  match hit with
  | some v => Except.ok (v, c)
  | none => do
      let col ← c.get_col name
      let v ← col.median
      Except.ok (v, { c with
        cache := cacheUpdate (fun e => { e with median := some v }) col.name c.cache })

/-- `Csv::quantile`: takes `&self`, is never cached, and cannot modify the
frame (the unchanged frame is returned to give all three operations the same
observable shape). -/
def Csv.quantile {D : Type} (c : Csv D) (name : String) (q : ℚ) :
    Except Err (DataValue D × Csv D) := do
  let col ← c.get_col name
  let v ← col.quantile q
  Except.ok (v, c)

/-- Constructed columns always satisfy `n_elements = values.len()`. -/
def CsvCol.WF {T : Type} (c : CsvCol T) : Prop := c.n_elements = c.values.length

/-- The sorted cache is either empty or a valid `(sorted copy, tag)` pair —
the only cache states the code ever constructs. -/
def CsvCol.GoodCache {T : Type} (cmp : T → T → Ordering) (c : CsvCol T) : Prop :=
  c.sorted_values = none ∨
    c.sorted_values = some (rustSortBy cmp c.values, c.values.length)

@[simp] theorem emap_ok {α β : Type} (f : α → β) (a : α) :
    (Except.ok a : Except Err α).map f = Except.ok (f a) := rfl

@[simp] theorem emap_error {α β : Type} (f : α → β) (e : Err) :
    (Except.error e : Except Err α).map f = Except.error e := rfl

@[simp] theorem ebind_ok {α β : Type} (f : α → Except Err β) (a : α) :
    (Except.ok a : Except Err α) >>= f = f a := rfl

@[simp] theorem ebind_error {α β : Type} (f : α → Except Err β) (e : Err) :
    (Except.error e : Except Err α) >>= f = Except.error e := rfl

theorem emap_eq_ok {α β : Type} {f : α → β} {x : Except Err α} {v : β}
    (h : x.map f = Except.ok v) : ∃ a, x = Except.ok a ∧ v = f a := by
  cases x with
  | ok a => exact ⟨a, rfl, (Except.ok.inj h).symm⟩
  | error e => exact absurd h (by simp [Except.map])

theorem ebind_eq_ok {α β : Type} {f : α → Except Err β} {x : Except Err α}
    {v : β} (h : x >>= f = Except.ok v) : ∃ a, x = Except.ok a ∧ f a = Except.ok v := by
  cases x with
  | ok a => exact ⟨a, rfl, h⟩
  | error e => exact absurd h (by simp)

theorem listIndex_ok {T : Type} {l : List T} {i : Nat} (d : T)
    (h : i < l.length) : listIndex l i = Except.ok (l.getD i d) := by
  simp [listIndex, List.get?_eq_getElem?, List.getElem?_eq_getElem h,
    List.getD_eq_getElem?_getD]

theorem listIndex_oob {T : Type} {l : List T} {i : Nat}
    (h : l.length ≤ i) : listIndex l i = Except.error Err.panic := by
  simp [listIndex, List.get?_eq_getElem?, List.getElem?_eq_none_iff.mpr h]

theorem listIndex_is_ok {T : Type} {l : List T} {i : Nat} {v : T}
    (h : listIndex l i = Except.ok v) : l.get? i = some v := by
  unfold listIndex at h
  cases hg : l.get? i with
  | some w => rw [hg] at h; exact congrArg some (Except.ok.inj h)
  | none => rw [hg] at h; exact absurd h (by simp)

theorem usizeSub_one_eq {a : Nat} (h1 : 1 ≤ a) (h2 : a ≤ 2 ^ 64) :
    usizeSub a 1 = a - 1 := by
  unfold usizeSub
  norm_num
  omega

theorem usizeSub_zero_one : usizeSub 0 1 = USIZE_MAX := by decide

theorem i64Wrap_eq_self {x : ℤ} (h1 : -(2 ^ 63) ≤ x) (h2 : x ≤ 2 ^ 63 - 1) :
    i64Wrap x = x := by
  unfold i64Wrap
  omega

theorem length_rustSortBy {T : Type} (cmp : T → T → Ordering) (l : List T) :
    (rustSortBy cmp l).length = l.length :=
  (List.perm_insertionSort _ l).length_eq

theorem perm_rustSortBy {T : Type} (cmp : T → T → Ordering) (l : List T) :
    (rustSortBy cmp l).Perm l :=
  List.perm_insertionSort _ l

theorem linCmp_ne_gt_iff {T : Type} [LinearOrder T] (a b : T) :
    (linCmp a b ≠ Ordering.gt) ↔ a ≤ b := by
  unfold linCmp
  split_ifs with h1 h2
  · simp [le_of_lt h1]
  · simp [le_of_eq h2]
  · simp only [ne_eq, not_true_eq_false, false_iff, not_le]
    exact lt_of_le_of_ne (le_of_not_lt h1) (fun h => h2 h.symm)

theorem sorted_rustSortBy {T : Type} [LinearOrder T] (l : List T) :
    List.Sorted (fun a b => a ≤ b) (rustSortBy linCmp l) := by
  haveI : IsTotal T (fun a b => linCmp a b ≠ Ordering.gt) :=
    ⟨fun a b => by
      rw [linCmp_ne_gt_iff, linCmp_ne_gt_iff]
      exact le_total a b⟩
  haveI : IsTrans T (fun a b => linCmp a b ≠ Ordering.gt) :=
    ⟨fun a b c hab hbc => by
      rw [linCmp_ne_gt_iff] at *
      exact le_trans hab hbc⟩
  have h := List.sorted_insertionSort (fun a b => linCmp a b ≠ Ordering.gt) l
  exact h.imp (fun {a b} hab => (linCmp_ne_gt_iff a b).mp hab)

/-- The column state left behind by a sorted-snapshot miss. -/
def afterSort {T : Type} (cmp : T → T → Ordering) (col : CsvCol T) : CsvCol T :=
  let sorted := rustSortBy cmp col.values
  { col with sorted_values := some (sorted, sorted.length) }

theorem get_sorted_fst {T : Type} (cmp : T → T → Ordering) (col : CsvCol T)
    (hwf : col.WF) (hc : col.GoodCache cmp) :
    (col.get_sorted cmp).1 = rustSortBy cmp col.values := by
  rcases hc with h | h
  · simp [CsvCol.get_sorted, h]
  · simp only [CsvCol.WF] at hwf
    simp [CsvCol.get_sorted, h, hwf]

theorem get_sorted_of_none {T : Type} (cmp : T → T → Ordering) (col : CsvCol T)
    (h : col.sorted_values = none) :
    col.get_sorted cmp = (rustSortBy cmp col.values, afterSort cmp col) := by
  simp [CsvCol.get_sorted, afterSort, h]

theorem get_sorted_hit {T : Type} (cmp : T → T → Ordering) (col : CsvCol T)
    (cached : List T) (h : col.sorted_values = some (cached, col.n_elements)) :
    col.get_sorted cmp = (cached, col) := by
  simp [CsvCol.get_sorted, h]

theorem parseAll_ok_of_all {T : Type} (parse : String → Option T)
    (l : List String) (h : ∀ c ∈ l, (parse c).isSome) :
    ∃ vs : List T, parseAll parse l = Except.ok vs := by
  induction l with
  | nil => exact ⟨[], rfl⟩
  | cons a t ih =>
      obtain ⟨w, hw⟩ := Option.isSome_iff_exists.mp (h a (by simp))
      obtain ⟨vs, hvs⟩ := ih (fun c hc => h c (by simp [hc]))
      exact ⟨w :: vs, by simp [parseAll, hw, hvs]⟩

theorem parseAll_error_of_bad {T : Type} (parse : String → Option T)
    (l : List String) (h : ∃ c ∈ l, parse c = none) :
    ∃ c ∈ l, parseAll parse l = Except.error (Err.parseError c) := by
  induction l with
  | nil => simp at h
  | cons a t ih =>
      by_cases ha : parse a = none
      · exact ⟨a, by simp, by simp [parseAll, ha]⟩
      · obtain ⟨w, hw⟩ := Option.ne_none_iff_exists'.mp ha
        obtain ⟨c, hc, hres⟩ := ih (by
          obtain ⟨c, hc, hcn⟩ := h
          rcases List.mem_cons.mp hc with rfl | hct
          · exact absurd hcn ha
          · exact ⟨c, hct, hcn⟩)
        exact ⟨c, by simp [hc], by simp [parseAll, hw, hres]⟩

theorem parseAll_id (l : List String) : parseAll parseString l = Except.ok l := by
  induction l with
  | nil => rfl
  | cons a t ih => simp [parseAll, parseString, ih]

/-- spec-side float quantile formula. -/
def specFloatQuantile (sorted : List ℚ) (n : Nat) (q : ℚ) : ℚ :=
  let pos := min (max (q * ((n : ℚ) - 1)) 0) ((n : ℚ) - 1)
  let lo := (⌊pos⌋).toNat
  let frac := pos - (lo : ℚ)
  if n ≤ lo + 1 then sorted.getD lo 0
  else sorted.getD lo 0 * (1 - frac) + sorted.getD (lo + 1) 0 * frac

theorem quantileF_main {D : Type} (col : CsvCol ℚ) (q : ℚ)
    (hwf : col.WF) (hc : col.GoodCache linCmp)
    (hn : 1 ≤ col.n_elements) (hmax : col.n_elements ≤ USIZE_MAX)
    (hq0 : 0 ≤ q) (hq1 : q < 1) :
    col.quantileF (D := D) q = Except.ok (DataValue.float
      (specFloatQuantile (rustSortBy linCmp col.values) col.n_elements q)) := by
  have hs1 : (col.get_sorted linCmp).1 = rustSortBy linCmp col.values :=
    get_sorted_fst _ _ hwf hc
  have hlenS : (rustSortBy linCmp col.values).length = col.n_elements :=
    (length_rustSortBy _ _).trans hwf.symm
  have hmax' : col.n_elements ≤ 2 ^ 64 := le_trans hmax (by norm_num [USIZE_MAX])
  have hsub : usizeSub col.n_elements 1 = col.n_elements - 1 :=
    usizeSub_one_eq hn hmax'
  have hcast : ((col.n_elements - 1 : ℕ) : ℚ) = (col.n_elements : ℚ) - 1 := by
    push_cast [hn]
    ring
  have hnn : (0 : ℚ) ≤ (col.n_elements : ℚ) - 1 := by
    rw [sub_nonneg]
    exact_mod_cast hn
  have hpos0 : (0 : ℚ) ≤ q * ((col.n_elements : ℚ) - 1) := mul_nonneg hq0 hnn
  have hposle : q * ((col.n_elements : ℚ) - 1) ≤ (col.n_elements : ℚ) - 1 :=
    mul_le_of_le_one_left hnn hq1.le
  have hfloor0 : 0 ≤ ⌊q * ((col.n_elements : ℚ) - 1)⌋ := Int.floor_nonneg.mpr hpos0
  have hfloorle : ⌊q * ((col.n_elements : ℚ) - 1)⌋ ≤ (col.n_elements : ℤ) - 1 := by
    calc ⌊q * ((col.n_elements : ℚ) - 1)⌋ ≤ ⌊(col.n_elements : ℚ) - 1⌋ :=
          Int.floor_le_floor hposle
    _ = (col.n_elements : ℤ) - 1 := by
          rw [show ((col.n_elements : ℚ) - 1) = (((col.n_elements : ℤ) - 1 : ℤ) : ℚ) by push_cast; ring]
          exact Int.floor_intCast _
  have hLle : (⌊q * ((col.n_elements : ℚ) - 1)⌋).toNat ≤ col.n_elements - 1 := by omega
  have hAs : f64AsUsize (q * ((col.n_elements : ℚ) - 1)) =
      (⌊q * ((col.n_elements : ℚ) - 1)⌋).toNat := by
    unfold f64AsUsize
    rw [max_eq_left hfloor0, min_eq_left]
    norm_num [USIZE_MAX] at hmax ⊢
    omega
  simp only [CsvCol.quantileF, hs1, hlenS, hsub, hcast,
    not_not_intro (And.intro hq0 hq1), if_false,
    if_neg (not_lt.mpr hpos0), if_neg (not_lt.mpr hposle), hAs]
  simp only [specFloatQuantile, max_eq_left hpos0, min_eq_left hposle]
  by_cases hbr : col.n_elements ≤ (⌊q * ((col.n_elements : ℚ) - 1)⌋).toNat + 1
  · rw [if_pos hbr, if_pos hbr, listIndex_ok 0 (by rw [hlenS]; omega)]
    rfl
  · rw [if_neg hbr, if_neg hbr,
      listIndex_ok (0 : ℚ) (show (⌊q * ((col.n_elements : ℚ) - 1)⌋).toNat < (rustSortBy linCmp col.values).length by rw [hlenS]; omega),
      listIndex_ok (0 : ℚ) (show (⌊q * ((col.n_elements : ℚ) - 1)⌋).toNat + 1 < (rustSortBy linCmp col.values).length by rw [hlenS]; omega)]
    simp

/-- spec-side integer quantile formula. -/
def specIntQuantile (sorted : List ℤ) (n : Nat) (q : ℚ) : ℤ :=
  let idx := min ((max (⌈q * (n : ℚ)⌉ - 1) 0).toNat) (n - 1)
  sorted.getD idx 0

theorem quantileI_main {D : Type} (col : CsvCol ℤ) (q : ℚ)
    (hwf : col.WF) (hc : col.GoodCache linCmp)
    (hn : 1 ≤ col.n_elements) (hmax : col.n_elements ≤ USIZE_MAX)
    (hq0 : 0 ≤ q) (hq1 : q < 1) :
    col.quantileI (D := D) q = Except.ok (DataValue.integer
      (specIntQuantile (rustSortBy linCmp col.values) col.n_elements q)) := by
  have hs1 : (col.get_sorted linCmp).1 = rustSortBy linCmp col.values :=
    get_sorted_fst _ _ hwf hc
  have hlenS : (rustSortBy linCmp col.values).length = col.n_elements :=
    (length_rustSortBy _ _).trans hwf.symm
  have hceil0 : 0 ≤ ⌈q * (col.n_elements : ℚ)⌉ :=
    Int.ceil_nonneg (mul_nonneg hq0 (Nat.cast_nonneg _))
  have hqn : q * (col.n_elements : ℚ) ≤ ((col.n_elements : ℤ) : ℚ) := by
    push_cast
    exact mul_le_of_le_one_left (Nat.cast_nonneg _) hq1.le
  have hceille : ⌈q * (col.n_elements : ℚ)⌉ ≤ (col.n_elements : ℤ) :=
    Int.ceil_le.mpr hqn
  have hAs : f64AsUsize ((⌈q * (col.n_elements : ℚ)⌉ : ℤ) : ℚ) =
      (⌈q * (col.n_elements : ℚ)⌉).toNat := by
    unfold f64AsUsize
    rw [Int.floor_intCast, max_eq_left hceil0, min_eq_left]
    norm_num [USIZE_MAX] at hmax ⊢
    omega
  simp only [CsvCol.quantileI, hs1, hlenS, hAs,
    not_not_intro (And.intro hq0 hq1), if_false]
  simp only [specIntQuantile]
  by_cases hz : (⌈q * (col.n_elements : ℚ)⌉).toNat = 0
  · rw [hz, usizeSub_zero_one, if_pos rfl]
    rw [listIndex_ok (0 : ℤ) (show 0 < (rustSortBy linCmp col.values).length by rw [hlenS]; omega)]
    have hidx : min ((max (⌈q * (col.n_elements : ℚ)⌉ - 1) 0).toNat) (col.n_elements - 1) = 0 := by
      omega
    rw [hidx]
    rfl
  · have hc1 : 1 ≤ (⌈q * (col.n_elements : ℚ)⌉).toNat := by omega
    have hcn : (⌈q * (col.n_elements : ℚ)⌉).toNat ≤ col.n_elements := by omega
    have hmax2 : col.n_elements ≤ 2 ^ 64 := by
      norm_num [USIZE_MAX] at hmax
      omega
    rw [usizeSub_one_eq hc1 (le_trans hcn hmax2)]
    rw [if_neg (show ¬((⌈q * (col.n_elements : ℚ)⌉).toNat - 1 = USIZE_MAX) by
      norm_num [USIZE_MAX] at hmax ⊢
      omega)]
    rw [if_neg (show ¬((⌈q * (col.n_elements : ℚ)⌉).toNat - 1 ≥ col.n_elements) by omega)]
    rw [listIndex_ok (0 : ℤ) (show (⌈q * (col.n_elements : ℚ)⌉).toNat - 1 < (rustSortBy linCmp col.values).length by rw [hlenS]; omega)]
    have hidx : min ((max (⌈q * (col.n_elements : ℚ)⌉ - 1) 0).toNat) (col.n_elements - 1) =
        (⌈q * (col.n_elements : ℚ)⌉).toNat - 1 := by
      omega
    rw [hidx]
    rfl

theorem quantileF_invalid {D : Type} (col : CsvCol ℚ) (q : ℚ)
    (hq : q < 0 ∨ 1 ≤ q) :
    col.quantileF (D := D) q = Except.error (Err.invalidQuantile q) := by
  have hcond : ¬(0 ≤ q ∧ q < 1) := fun h => by
    rcases hq with hq | hq
    · exact absurd h.1 (not_le.mpr hq)
    · exact absurd h.2 (not_lt.mpr hq)
  rw [CsvCol.quantileF, if_pos hcond]

theorem quantileI_invalid {D : Type} (col : CsvCol ℤ) (q : ℚ)
    (hq : q < 0 ∨ 1 ≤ q) :
    col.quantileI (D := D) q = Except.error (Err.invalidQuantile q) := by
  have hcond : ¬(0 ≤ q ∧ q < 1) := fun h => by
    rcases hq with hq | hq
    · exact absurd h.1 (not_le.mpr hq)
    · exact absurd h.2 (not_lt.mpr hq)
  rw [CsvCol.quantileI, if_pos hcond]

theorem medianF_even {D : Type} (col : CsvCol ℚ)
    (hwf : col.WF) (hc : col.GoodCache linCmp)
    (hn : 1 ≤ col.n_elements) (heven : col.n_elements % 2 = 0) :
    col.medianF (D := D) = Except.ok (DataValue.float
      ((rustSortBy linCmp col.values).getD (col.n_elements / 2) 0)) := by
  have hs1 : (col.get_sorted linCmp).1 = rustSortBy linCmp col.values :=
    get_sorted_fst _ _ hwf hc
  have hlenS : (rustSortBy linCmp col.values).length = col.n_elements :=
    (length_rustSortBy _ _).trans hwf.symm
  simp only [CsvCol.medianF, hs1, hlenS]
  rw [if_neg (by omega), if_pos heven,
    listIndex_ok (0 : ℚ) (show col.n_elements / 2 < (rustSortBy linCmp col.values).length by rw [hlenS]; omega)]
  rfl

theorem medianF_odd {D : Type} (col : CsvCol ℚ)
    (hwf : col.WF) (hc : col.GoodCache linCmp) (hmax : col.n_elements ≤ USIZE_MAX)
    (h3 : 3 ≤ col.n_elements) (hodd : col.n_elements % 2 = 1) :
    col.medianF (D := D) = Except.ok (DataValue.float
      ((1 : ℚ) / 2 * ((rustSortBy linCmp col.values).getD (col.n_elements / 2) 0 +
        (rustSortBy linCmp col.values).getD (col.n_elements / 2 - 1) 0))) := by
  have hs1 : (col.get_sorted linCmp).1 = rustSortBy linCmp col.values :=
    get_sorted_fst _ _ hwf hc
  have hlenS : (rustSortBy linCmp col.values).length = col.n_elements :=
    (length_rustSortBy _ _).trans hwf.symm
  have hmax2 : col.n_elements ≤ 2 ^ 64 := by
    norm_num [USIZE_MAX] at hmax
    omega
  simp only [CsvCol.medianF, hs1, hlenS]
  rw [if_neg (by omega), if_neg (by omega),
    usizeSub_one_eq (by omega) (by omega),
    listIndex_ok (0 : ℚ) (show col.n_elements / 2 < (rustSortBy linCmp col.values).length by rw [hlenS]; omega),
    listIndex_ok (0 : ℚ) (show col.n_elements / 2 - 1 < (rustSortBy linCmp col.values).length by rw [hlenS]; omega)]
  rfl

theorem medianF_singleton {D : Type} (col : CsvCol ℚ)
    (hwf : col.WF) (hc : col.GoodCache linCmp) (h1 : col.n_elements = 1) :
    col.medianF (D := D) = Except.error Err.panic := by
  have hs1 : (col.get_sorted linCmp).1 = rustSortBy linCmp col.values :=
    get_sorted_fst _ _ hwf hc
  have hlenS : (rustSortBy linCmp col.values).length = col.n_elements :=
    (length_rustSortBy _ _).trans hwf.symm
  simp only [CsvCol.medianF, hs1, hlenS, h1]
  rw [if_neg (by omega), if_neg (by omega),
    listIndex_ok (0 : ℚ) (show 1 / 2 < (rustSortBy linCmp col.values).length by rw [hlenS, h1]; omega)]
  rw [show usizeSub (1 / 2) 1 = USIZE_MAX from usizeSub_zero_one,
    listIndex_oob (show (rustSortBy linCmp col.values).length ≤ USIZE_MAX by rw [hlenS, h1]; norm_num [USIZE_MAX])]
  rfl

theorem medianI_odd {D : Type} (col : CsvCol ℤ) (hwf : col.WF)
    (hodd : col.n_elements % 2 = 1) :
    col.medianI (D := D) = Except.ok (DataValue.integer
      ((rustSortBy linCmp col.values).getD (col.n_elements / 2) 0)) := by
  have hlenS : (rustSortBy linCmp col.values).length = col.n_elements :=
    (length_rustSortBy _ _).trans hwf.symm
  simp only [CsvCol.medianI, hlenS]
  rw [if_neg (by omega), if_pos (by omega),
    listIndex_ok (0 : ℤ) (show col.n_elements / 2 < (rustSortBy linCmp col.values).length by rw [hlenS]; omega)]
  rfl

theorem medianI_even {D : Type} (col : CsvCol ℤ) (hwf : col.WF)
    (hmax : col.n_elements ≤ USIZE_MAX)
    (hn : 1 ≤ col.n_elements) (heven : col.n_elements % 2 = 0) :
    col.medianI (D := D) = Except.ok (DataValue.integer
      (i64Wrap (Int.tdiv ((rustSortBy linCmp col.values).getD (col.n_elements / 2) 0) 2 +
        (rustSortBy linCmp col.values).getD (col.n_elements / 2 - 1) 0))) := by
  have hlenS : (rustSortBy linCmp col.values).length = col.n_elements :=
    (length_rustSortBy _ _).trans hwf.symm
  have hmax2 : col.n_elements ≤ 2 ^ 64 := by
    norm_num [USIZE_MAX] at hmax
    omega
  simp only [CsvCol.medianI, hlenS]
  rw [if_neg (by omega), if_neg (by omega),
    usizeSub_one_eq (by omega) (by omega),
    listIndex_ok (0 : ℤ) (show col.n_elements / 2 < (rustSortBy linCmp col.values).length by rw [hlenS]; omega),
    listIndex_ok (0 : ℤ) (show col.n_elements / 2 - 1 < (rustSortBy linCmp col.values).length by rw [hlenS]; omega)]
  rfl

theorem parseAll_error_shape {T : Type} {parse : String → Option T}
    {l : List String} {e : Err} (h : parseAll parse l = Except.error e) :
    ∃ c ∈ l, e = Err.parseError c := by
  induction l with
  | nil => exact absurd h (by simp [parseAll])
  | cons a t ih =>
      by_cases ha : parse a = none
      · simp [parseAll, ha] at h
        exact ⟨a, by simp, h.symm⟩
      · obtain ⟨w, hw⟩ := Option.ne_none_iff_exists'.mp ha
        simp only [parseAll, hw] at h
        cases ht : parseAll parse t with
        | ok vs => rw [ht] at h; exact absurd h (by simp)
        | error e2 =>
            rw [ht] at h
            simp at h
            obtain ⟨c, hc, he⟩ := ih (ht.trans (congrArg Except.error h))
            exact ⟨c, by simp [hc], he⟩

theorem from_values_integer {D : Type} (dtF : String → String → Option D)
    (dtG : String → Option D) (cells : List String) (name : String)
    (h : ∀ c ∈ cells, (parseI64 c).isSome) :
    ColType.from_values dtF dtG cells name none =
      (parseAll parseI64 cells).map (fun vs =>
        ColType.integer ⟨name, vs, vs.length, none⟩) := by
  obtain ⟨vs, hvs⟩ := parseAll_ok_of_all parseI64 cells h
  simp [ColType.from_values, fromStrList, hvs]

theorem from_values_float {D : Type} (dtF : String → String → Option D)
    (dtG : String → Option D) (cells : List String) (name : String)
    (hbad : ∃ c ∈ cells, parseI64 c = none)
    (h : ∀ c ∈ cells, (parseF64 c).isSome) :
    ColType.from_values dtF dtG cells name none =
      (parseAll parseF64 cells).map (fun vs =>
        ColType.float ⟨name, vs, vs.length, none⟩) := by
  obtain ⟨c, hc, herr⟩ := parseAll_error_of_bad parseI64 cells hbad
  obtain ⟨vs, hvs⟩ := parseAll_ok_of_all parseF64 cells h
  simp [ColType.from_values, fromStrList, herr, hvs]

theorem from_values_string {D : Type} (dtF : String → String → Option D)
    (dtG : String → Option D) (cells : List String) (name : String)
    (hbadI : ∃ c ∈ cells, parseI64 c = none)
    (hbadF : ∃ c ∈ cells, parseF64 c = none) :
    ColType.from_values dtF dtG cells name none =
      Except.ok (ColType.string ⟨name, cells, cells.length, none⟩) := by
  obtain ⟨c, hc, herrI⟩ := parseAll_error_of_bad parseI64 cells hbadI
  obtain ⟨c2, hc2, herrF⟩ := parseAll_error_of_bad parseF64 cells hbadF
  simp [ColType.from_values, fromStrList, herrI, herrF, parseAll_id]

theorem from_values_unforced_ok {D : Type} (dtF : String → String → Option D)
    (dtG : String → Option D) (cells : List String) (name : String) :
    ∃ col, ColType.from_values dtF dtG cells name none = Except.ok col := by
  cases h1 : parseAll parseI64 cells with
  | ok vs =>
      exact ⟨ColType.integer ⟨name, vs, vs.length, none⟩, by
        simp [ColType.from_values, fromStrList, h1]⟩
  | error e =>
      cases h2 : parseAll parseF64 cells with
      | ok vs =>
          exact ⟨ColType.float ⟨name, vs, vs.length, none⟩, by
            simp [ColType.from_values, fromStrList, h1, h2]⟩
      | error e2 =>
          exact ⟨ColType.string ⟨name, cells, cells.length, none⟩, by
            simp [ColType.from_values, fromStrList, h1, h2, parseAll_id]⟩

theorem from_values_forced_fail {D : Type} (dtF : String → String → Option D)
    (dtG : String → Option D) (cells : List String) (name : String)
    (cfg : ColConfig) (hdate : cfg.as_date = true)
    (hbad : ∃ c ∈ cells,
      (match cfg.date_format with
       | some f => dtF c f
       | none => dtG c) = none) :
    ∃ c ∈ cells,
      ColType.from_values dtF dtG cells name (some cfg) =
        Except.error (Err.parseError c) := by
  obtain ⟨c, hc, herr⟩ := parseAll_error_of_bad
    (fun line => match cfg.date_format with
      | some f => dtF line f
      | none => dtG line) cells hbad
  exact ⟨c, hc, by
    simp [ColType.from_values, ColType.as_date, hdate, asDatetime, herr]⟩

theorem from_values_no_invalidColType {D : Type}
    (dtF : String → String → Option D) (dtG : String → Option D)
    (cells : List String) (name : String) (config : Option ColConfig)
    (nm : String) :
    ColType.from_values dtF dtG cells name config ≠
      Except.error (Err.invalidColType nm) := by
  have cascade : ∀ h : ColType.from_values dtF dtG cells name config =
      Except.error (Err.invalidColType nm), False := by
    intro h
    unfold ColType.from_values at h
    rcases config with _ | cfg
    · simp only at h
      cases h1 : parseAll parseI64 cells <;>
        cases h2 : parseAll parseF64 cells <;>
          simp [fromStrList, h1, h2, parseAll_id] at h
    · by_cases hdate : cfg.as_date
      · simp only [ColType.as_date, hdate, if_true, asDatetime] at h
        cases h3 : parseAll (fun line =>
            match cfg.date_format with
            | some f => dtF line f
            | none => dtG line) cells with
        | ok vs => rw [h3] at h; simp at h
        | error e =>
            rw [h3] at h
            simp at h
            obtain ⟨c, _, he⟩ := parseAll_error_shape h3
            rw [he] at h
            exact Err.noConfusion h.symm
      · simp only [ColType.as_date, hdate, if_false] at h
        cases h1 : parseAll parseI64 cells <;>
          cases h2 : parseAll parseF64 cells <;>
            simp [fromStrList, h1, h2, parseAll_id] at h
  exact fun h => cascade h

theorem cacheLookup_update {D : Type} (f : StatsEntry D → StatsEntry D)
    (name : String) (l : List (String × StatsEntry D)) :
    cacheLookup (cacheUpdate f name l) name =
      some (f ((cacheLookup l name).getD StatsEntry.empty)) := by
  induction l with
  | nil => simp [cacheUpdate, cacheLookup]
  | cons e t ih =>
      by_cases he : e.1 = name
      · simp [cacheUpdate, cacheLookup, he]
      · simp only [cacheUpdate, if_neg he]
        have hbe : (e.1 == name) = false := by
          simp [he]
        simp only [cacheLookup, List.find?_cons, hbe] at ih ⊢
        exact ih

theorem get_col_name {D : Type} {c : Csv D} {name : String} {col : ColType D}
    (h : c.get_col name = Except.ok col) : col.name = name := by
  unfold Csv.get_col at h
  cases hf : c.cols.find? (fun col => col.name == name) with
  | some col2 =>
      rw [hf] at h
      have := List.find?_some hf
      cases h
      exact eq_of_beq this
  | none => rw [hf] at h; exact absurd h (by simp)

theorem csv_mean_hit {D : Type} (c : Csv D) (name : String)
    (entry : StatsEntry D) (v : DataValue D)
    (h1 : cacheLookup c.cache name = some entry) (h2 : entry.mean = some v) :
    Csv.mean c name = Except.ok (v, c) := by
  simp [Csv.mean, h1, h2]

theorem csv_median_hit {D : Type} (c : Csv D) (name : String)
    (entry : StatsEntry D) (v : DataValue D)
    (h1 : cacheLookup c.cache name = some entry) (h2 : entry.median = some v) :
    Csv.median c name = Except.ok (v, c) := by
  simp [Csv.median, h1, h2]

theorem csv_mean_idem {D : Type} (c : Csv D) (name : String)
    (v : DataValue D) (c' : Csv D)
    (h : Csv.mean c name = Except.ok (v, c')) :
    (∃ entry, cacheLookup c'.cache name = some entry ∧ entry.mean = some v) ∧
      Csv.mean c' name = Except.ok (v, c') := by
  unfold Csv.mean at h
  cases hl : cacheLookup c.cache name with
  | some entry =>
      cases hm : entry.mean with
      | some w =>
          rw [hl] at h
          simp only [hm] at h
          obtain ⟨hv, hc⟩ := Prod.mk.injEq .. ▸ Except.ok.inj h
          subst hv hc
          exact ⟨⟨entry, hl, hm⟩, csv_mean_hit c name entry w hl hm⟩
      | none =>
          rw [hl] at h
          simp only [hm] at h
          obtain ⟨col, hcol, hrest⟩ := ebind_eq_ok h
          obtain ⟨w, hw, hfin⟩ := ebind_eq_ok hrest
          obtain ⟨hv, hc⟩ := Prod.mk.injEq .. ▸ Except.ok.inj hfin
          subst hv
          have hname := get_col_name hcol
          have hupd : cacheLookup c'.cache name =
              some ({ (cacheLookup c.cache name).getD StatsEntry.empty with mean := some w }) := by
            rw [← hc]
            simp only
            rw [hname]
            exact cacheLookup_update _ _ _
          refine ⟨⟨_, hupd, rfl⟩, csv_mean_hit _ _ _ _ hupd rfl⟩
  | none =>
      rw [hl] at h
      simp only at h
      obtain ⟨col, hcol, hrest⟩ := ebind_eq_ok h
      obtain ⟨w, hw, hfin⟩ := ebind_eq_ok hrest
      obtain ⟨hv, hc⟩ := Prod.mk.injEq .. ▸ Except.ok.inj hfin
      subst hv
      have hname := get_col_name hcol
      have hupd : cacheLookup c'.cache name =
          some ({ (cacheLookup c.cache name).getD StatsEntry.empty with mean := some w }) := by
        rw [← hc]
        simp only
        rw [hname]
        exact cacheLookup_update _ _ _
      refine ⟨⟨_, hupd, rfl⟩, csv_mean_hit _ _ _ _ hupd rfl⟩

theorem csv_median_idem {D : Type} (c : Csv D) (name : String)
    (v : DataValue D) (c' : Csv D)
    (h : Csv.median c name = Except.ok (v, c')) :
    (∃ entry, cacheLookup c'.cache name = some entry ∧ entry.median = some v) ∧
      Csv.median c' name = Except.ok (v, c') := by
  unfold Csv.median at h
  cases hl : cacheLookup c.cache name with
  | some entry =>
      cases hm : entry.median with
      | some w =>
          rw [hl] at h
          simp only [hm] at h
          obtain ⟨hv, hc⟩ := Prod.mk.injEq .. ▸ Except.ok.inj h
          subst hv hc
          exact ⟨⟨entry, hl, hm⟩, csv_median_hit c name entry w hl hm⟩
      | none =>
          rw [hl] at h
          simp only [hm] at h
          obtain ⟨col, hcol, hrest⟩ := ebind_eq_ok h
          obtain ⟨w, hw, hfin⟩ := ebind_eq_ok hrest
          obtain ⟨hv, hc⟩ := Prod.mk.injEq .. ▸ Except.ok.inj hfin
          subst hv
          have hname := get_col_name hcol
          have hupd : cacheLookup c'.cache name =
              some ({ (cacheLookup c.cache name).getD StatsEntry.empty with median := some w }) := by
            rw [← hc]
            simp only
            rw [hname]
            exact cacheLookup_update _ _ _
          refine ⟨⟨_, hupd, rfl⟩, csv_median_hit _ _ _ _ hupd rfl⟩
  | none =>
      rw [hl] at h
      simp only at h
      obtain ⟨col, hcol, hrest⟩ := ebind_eq_ok h
      obtain ⟨w, hw, hfin⟩ := ebind_eq_ok hrest
      obtain ⟨hv, hc⟩ := Prod.mk.injEq .. ▸ Except.ok.inj hfin
      subst hv
      have hname := get_col_name hcol
      have hupd : cacheLookup c'.cache name =
          some ({ (cacheLookup c.cache name).getD StatsEntry.empty with median := some w }) := by
        rw [← hc]
        simp only
        rw [hname]
        exact cacheLookup_update _ _ _
      refine ⟨⟨_, hupd, rfl⟩, csv_median_hit _ _ _ _ hupd rfl⟩

theorem csv_mean_compute {D : Type} (c : Csv D) (name : String)
    (col : ColType D) (v : DataValue D)
    (hmiss : ∀ entry, cacheLookup c.cache name = some entry → entry.mean = none)
    (hcol : c.get_col name = Except.ok col)
    (hv : col.mean = Except.ok v) :
    Csv.mean c name = Except.ok (v, { c with
      cache := cacheUpdate (fun e => { e with mean := some v }) col.name c.cache }) := by
  unfold Csv.mean
  cases hl : cacheLookup c.cache name with
  | some entry => simp [hl, hmiss entry hl, hcol, hv]
  | none => simp [hl, hcol, hv]

theorem csv_quantile_pure {D : Type} (c : Csv D) (name : String) (q : ℚ)
    (v : DataValue D) (c' : Csv D)
    (h : Csv.quantile c name q = Except.ok (v, c')) : c' = c := by
  unfold Csv.quantile at h
  obtain ⟨col, hcol, hrest⟩ := ebind_eq_ok h
  obtain ⟨w, hw, hfin⟩ := ebind_eq_ok hrest
  obtain ⟨hv, hc⟩ := Prod.mk.injEq .. ▸ Except.ok.inj hfin
  exact hc.symm

theorem get_sorted_spec {T : Type} [LinearOrder T] (col : CsvCol T)
    (hwf : col.WF) (hfresh : col.sorted_values = none) :
    ((col.get_sorted linCmp).1 = rustSortBy linCmp col.values ∧
      List.Sorted (fun a b => a ≤ b) (col.get_sorted linCmp).1 ∧
      ((col.get_sorted linCmp).1).Perm col.values) ∧
    ((col.get_sorted linCmp).2.sorted_values =
      some ((col.get_sorted linCmp).1, col.n_elements)) ∧
    (((col.get_sorted linCmp).2.get_sorted linCmp).1 = (col.get_sorted linCmp).1 ∧
      ((col.get_sorted linCmp).2.get_sorted linCmp).2 = (col.get_sorted linCmp).2) := by
  have h1 := get_sorted_of_none linCmp col hfresh
  have hlen : (rustSortBy linCmp col.values).length = col.n_elements :=
    (length_rustSortBy _ _).trans hwf.symm
  have h2 : (col.get_sorted linCmp).2.sorted_values =
      some ((col.get_sorted linCmp).1, col.n_elements) := by
    rw [h1]
    simp [afterSort, hlen]
  have hcount : (col.get_sorted linCmp).2.n_elements = col.n_elements := by
    rw [h1]
    simp [afterSort]
  have hhit := get_sorted_hit linCmp (col.get_sorted linCmp).2
    (col.get_sorted linCmp).1 (by rw [h2, hcount])
  refine ⟨⟨by rw [h1], ?_, ?_⟩, h2, by rw [hhit], by rw [hhit]⟩
  · rw [h1]
    exact sorted_rustSortBy col.values
  · rw [h1]
    exact perm_rustSortBy linCmp col.values

/-- `DataValue::Null` or `DataValue::Unsigned`? -/
def DataValue.isNullOrUnsigned {D : Type} : DataValue D → Bool
  | DataValue.null => true
  | DataValue.unsigned _ => true
  | _ => false

/-- The `DataValue` variant corresponding to the column's variant. -/
def ColType.matchesVariant {D : Type} : ColType D → DataValue D → Bool
  | ColType.float _, DataValue.float _ => true
  | ColType.integer _, DataValue.integer _ => true
  | ColType.string _, DataValue.string _ => true
  | ColType.datetime _, DataValue.datetime _ => true
  | _, _ => false

/-- Well-formedness of a column variant. -/
def ColType.WF {D : Type} : ColType D → Prop
  | ColType.float c => c.WF
  | ColType.integer c => c.WF
  | ColType.string c => c.WF
  | ColType.datetime c => c.WF

theorem meanF_shape {D : Type} {col : CsvCol ℚ} {v : DataValue D}
    (h : col.meanF = Except.ok v) : ∃ x, v = DataValue.float x := by
  unfold CsvCol.meanF at h
  split at h
  · exact absurd h (by simp)
  · exact ⟨_, (Except.ok.inj h).symm⟩

theorem meanI_shape {D : Type} {col : CsvCol ℤ} {v : DataValue D}
    (h : col.meanI = Except.ok v) : ∃ x, v = DataValue.float x := by
  unfold CsvCol.meanI at h
  split at h
  · exact absurd h (by simp)
  · exact ⟨_, (Except.ok.inj h).symm⟩

theorem medianF_shape {D : Type} {col : CsvCol ℚ} {v : DataValue D}
    (h : col.medianF = Except.ok v) : ∃ x, v = DataValue.float x := by
  unfold CsvCol.medianF at h
  by_cases h0 : col.n_elements = 0
  · rw [if_pos h0] at h
    exact absurd h (by simp)
  · rw [if_neg h0] at h
    by_cases hpar : col.n_elements % 2 = 0
    · simp only [if_pos hpar] at h
      obtain ⟨a, _, hv⟩ := emap_eq_ok h
      exact ⟨a, hv⟩
    · simp only [if_neg hpar] at h
      obtain ⟨a, _, h2⟩ := ebind_eq_ok h
      obtain ⟨b, _, h3⟩ := ebind_eq_ok h2
      exact ⟨_, (Except.ok.inj h3).symm⟩

theorem medianI_shape {D : Type} {col : CsvCol ℤ} {v : DataValue D}
    (h : col.medianI = Except.ok v) : ∃ x, v = DataValue.integer x := by
  unfold CsvCol.medianI at h
  by_cases h0 : col.n_elements = 0
  · rw [if_pos h0] at h
    exact absurd h (by simp)
  · rw [if_neg h0] at h
    by_cases hpar : ¬ col.n_elements % 2 = 0
    · simp only [if_pos hpar] at h
      obtain ⟨a, _, hv⟩ := emap_eq_ok h
      exact ⟨a, hv⟩
    · simp only [if_neg hpar] at h
      obtain ⟨a, _, h2⟩ := ebind_eq_ok h
      obtain ⟨b, _, h3⟩ := ebind_eq_ok h2
      exact ⟨_, (Except.ok.inj h3).symm⟩

theorem quantileF_shape {D : Type} {col : CsvCol ℚ} {q : ℚ} {v : DataValue D}
    (h : col.quantileF q = Except.ok v) : ∃ x, v = DataValue.float x := by
  unfold CsvCol.quantileF at h
  by_cases hq : ¬(0 ≤ q ∧ q < 1)
  · rw [if_pos hq] at h
    exact absurd h (by simp)
  · rw [if_neg hq] at h
    by_cases hbr : f64AsUsize (if q * ((usizeSub (col.get_sorted linCmp).1.length 1 : ℕ) : ℚ) < 0 then 0
        else if q * ((usizeSub (col.get_sorted linCmp).1.length 1 : ℕ) : ℚ) > ((usizeSub (col.get_sorted linCmp).1.length 1 : ℕ) : ℚ) then ((usizeSub (col.get_sorted linCmp).1.length 1 : ℕ) : ℚ)
        else q * ((usizeSub (col.get_sorted linCmp).1.length 1 : ℕ) : ℚ)) + 1 ≥ (col.get_sorted linCmp).1.length
    · simp only [if_pos hbr] at h
      obtain ⟨a, _, hv⟩ := emap_eq_ok h
      exact ⟨a, hv⟩
    · simp only [if_neg hbr] at h
      obtain ⟨a, _, h2⟩ := ebind_eq_ok h
      obtain ⟨b, _, h3⟩ := ebind_eq_ok h2
      exact ⟨_, (Except.ok.inj h3).symm⟩

theorem quantileI_shape {D : Type} {col : CsvCol ℤ} {q : ℚ} {v : DataValue D}
    (h : col.quantileI q = Except.ok v) : ∃ x, v = DataValue.integer x := by
  unfold CsvCol.quantileI at h
  by_cases hq : ¬(0 ≤ q ∧ q < 1)
  · rw [if_pos hq] at h
    exact absurd h (by simp)
  · rw [if_neg hq] at h
    obtain ⟨a, _, hv⟩ := emap_eq_ok h
    exact ⟨a, hv⟩

theorem colType_mean_benign {D : Type} {col : ColType D} {v : DataValue D}
    (h : col.mean = Except.ok v) : v.isNullOrUnsigned = false := by
  cases col with
  | float c => obtain ⟨x, rfl⟩ := meanF_shape h; rfl
  | integer c => obtain ⟨x, rfl⟩ := meanI_shape h; rfl
  | string c => exact absurd h (by simp [ColType.mean])
  | datetime c => exact absurd h (by simp [ColType.mean])

theorem colType_median_benign {D : Type} {col : ColType D} {v : DataValue D}
    (h : col.median = Except.ok v) : v.isNullOrUnsigned = false := by
  cases col with
  | float c => obtain ⟨x, rfl⟩ := medianF_shape h; rfl
  | integer c => obtain ⟨x, rfl⟩ := medianI_shape h; rfl
  | string c => exact absurd h (by simp [ColType.median])
  | datetime c => exact absurd h (by simp [ColType.median])

theorem colType_quantile_benign {D : Type} {col : ColType D} {q : ℚ}
    {v : DataValue D} (h : col.quantile q = Except.ok v) :
    v.isNullOrUnsigned = false := by
  cases col with
  | float c => obtain ⟨x, rfl⟩ := quantileF_shape h; rfl
  | integer c => obtain ⟨x, rfl⟩ := quantileI_shape h; rfl
  | string c => exact absurd h (by simp [ColType.quantile])
  | datetime c => exact absurd h (by simp [ColType.quantile])

theorem colType_stddev_never_ok {D : Type} {col : ColType D} {v : DataValue D}
    (h : col.stddev = Except.ok v) : False := by
  cases col <;> exact absurd h (by simp [ColType.stddev, CsvCol.stddevF, CsvCol.stddevI])

theorem data_as_value_total {D : Type} (col : ColType D) (idx : Nat)
    (hwf : col.WF) (hidx : idx < col.count) :
    ∃ v, col.data_as_value idx = Except.ok v ∧ col.matchesVariant v = true := by
  cases col with
  | float c =>
      have hlt : idx < c.values.length := hwf ▸ hidx
      exact ⟨DataValue.float (c.values.get ⟨idx, hlt⟩),
        by simp [ColType.data_as_value, List.get?_eq_getElem?, List.getElem?_eq_getElem hlt], rfl⟩
  | integer c =>
      have hlt : idx < c.values.length := hwf ▸ hidx
      exact ⟨DataValue.integer (c.values.get ⟨idx, hlt⟩),
        by simp [ColType.data_as_value, List.get?_eq_getElem?, List.getElem?_eq_getElem hlt], rfl⟩
  | string c =>
      have hlt : idx < c.values.length := hwf ▸ hidx
      exact ⟨DataValue.string (c.values.get ⟨idx, hlt⟩),
        by simp [ColType.data_as_value, List.get?_eq_getElem?, List.getElem?_eq_getElem hlt], rfl⟩
  | datetime c =>
      have hlt : idx < c.values.length := hwf ▸ hidx
      exact ⟨DataValue.datetime (c.values.get ⟨idx, hlt⟩),
        by simp [ColType.data_as_value, List.get?_eq_getElem?, List.getElem?_eq_getElem hlt], rfl⟩

theorem data_as_value_matches {D : Type} {col : ColType D} {idx : Nat}
    {v : DataValue D} (h : col.data_as_value idx = Except.ok v) :
    col.matchesVariant v = true ∧ v.isNullOrUnsigned = false := by
  cases col with
  | float c =>
      cases hg : c.values.get? idx with
      | some w =>
          simp only [ColType.data_as_value, hg] at h
          cases h
          exact ⟨rfl, rfl⟩
      | none =>
          simp only [ColType.data_as_value, hg] at h
          exact Except.noConfusion h
  | integer c =>
      cases hg : c.values.get? idx with
      | some w =>
          simp only [ColType.data_as_value, hg] at h
          cases h
          exact ⟨rfl, rfl⟩
      | none =>
          simp only [ColType.data_as_value, hg] at h
          exact Except.noConfusion h
  | string c =>
      cases hg : c.values.get? idx with
      | some w =>
          simp only [ColType.data_as_value, hg] at h
          cases h
          exact ⟨rfl, rfl⟩
      | none =>
          simp only [ColType.data_as_value, hg] at h
          exact Except.noConfusion h
  | datetime c =>
      cases hg : c.values.get? idx with
      | some w =>
          simp only [ColType.data_as_value, hg] at h
          cases h
          exact ⟨rfl, rfl⟩
      | none =>
          simp only [ColType.data_as_value, hg] at h
          exact Except.noConfusion h

/-- The statistics cache only holds values the engine could have returned:
no `Null`, no `Unsigned`.  Freshly constructed frames (empty cache) satisfy
this, and the cache-writing operations preserve it. -/
def Csv.CacheBenign {D : Type} (c : Csv D) : Prop :=
  ∀ name entry, cacheLookup c.cache name = some entry →
    (∀ v, entry.mean = some v → v.isNullOrUnsigned = false) ∧
    (∀ v, entry.median = some v → v.isNullOrUnsigned = false) ∧
    (∀ v, entry.std_dev = some v → v.isNullOrUnsigned = false)

theorem cacheLookup_update_ne {D : Type} (f : StatsEntry D → StatsEntry D)
    (name k : String) (l : List (String × StatsEntry D)) (hk : k ≠ name) :
    cacheLookup (cacheUpdate f name l) k = cacheLookup l k := by
  induction l with
  | nil =>
      have hne : (name == k) = false := by
        simp [Ne.symm hk]
      simp [cacheUpdate, cacheLookup, hne]
  | cons e t ih =>
      by_cases he : e.1 = name
      · have hbe : (e.1 == k) = false := by
          simp [he, Ne.symm hk]
        have hnk : (name == k) = false := by
          simp [Ne.symm hk]
        simp [cacheUpdate, cacheLookup, he, hbe, hnk, List.find?_cons]
      · simp only [cacheUpdate, if_neg he]
        by_cases hek : e.1 = k
        · have hbe : (e.1 == k) = true := by simp [hek]
          simp [cacheLookup, List.find?_cons, hbe]
        · have hbe : (e.1 == k) = false := by simp [hek]
          simp only [cacheLookup, List.find?_cons, hbe] at ih ⊢
          exact ih

theorem csv_mean_benign {D : Type} (c : Csv D) (name : String)
    (v : DataValue D) (c' : Csv D) (hb : c.CacheBenign)
    (h : Csv.mean c name = Except.ok (v, c')) :
    v.isNullOrUnsigned = false ∧ c'.CacheBenign := by
  unfold Csv.mean at h
  cases hl : cacheLookup c.cache name with
  | some entry =>
      cases hm : entry.mean with
      | some w =>
          rw [hl] at h
          simp only [hm] at h
          obtain ⟨hv, hc⟩ := Prod.mk.injEq .. ▸ Except.ok.inj h
          subst hv hc
          exact ⟨(hb name entry hl).1 w hm, hb⟩
      | none =>
          rw [hl] at h
          simp only [hm] at h
          obtain ⟨col, hcol, hrest⟩ := ebind_eq_ok h
          obtain ⟨w, hw, hfin⟩ := ebind_eq_ok hrest
          obtain ⟨hv, hc⟩ := Prod.mk.injEq .. ▸ Except.ok.inj hfin
          subst hv
          have hwben := colType_mean_benign hw
          refine ⟨hwben, ?_⟩
          intro n2 e2 hl2
          rw [← hc] at hl2
          simp only at hl2
          by_cases hn2 : n2 = name
          · subst hn2
            rw [get_col_name hcol, cacheLookup_update] at hl2
            cases hl2
            refine ⟨fun u hu => ?_, fun u hu => ?_, fun u hu => ?_⟩
            · simp only at hu
              cases hu
              exact hwben
            · simp only at hu
              cases hol : cacheLookup c.cache n2 with
              | some eo =>
                  rw [hol] at hu
                  exact (hb n2 eo hol).2.1 u hu
              | none => rw [hol] at hu; exact absurd hu (by simp [StatsEntry.empty])
            · simp only at hu
              cases hol : cacheLookup c.cache n2 with
              | some eo =>
                  rw [hol] at hu
                  exact (hb n2 eo hol).2.2 u hu
              | none => rw [hol] at hu; exact absurd hu (by simp [StatsEntry.empty])
          · rw [get_col_name hcol, cacheLookup_update_ne _ _ _ _ hn2] at hl2
            exact hb n2 e2 hl2
  | none =>
      rw [hl] at h
      simp only at h
      obtain ⟨col, hcol, hrest⟩ := ebind_eq_ok h
      obtain ⟨w, hw, hfin⟩ := ebind_eq_ok hrest
      obtain ⟨hv, hc⟩ := Prod.mk.injEq .. ▸ Except.ok.inj hfin
      subst hv
      have hwben := colType_mean_benign hw
      refine ⟨hwben, ?_⟩
      intro n2 e2 hl2
      rw [← hc] at hl2
      simp only at hl2
      by_cases hn2 : n2 = name
      · subst hn2
        rw [get_col_name hcol, cacheLookup_update] at hl2
        cases hl2
        refine ⟨fun u hu => ?_, fun u hu => ?_, fun u hu => ?_⟩
        · simp only at hu
          cases hu
          exact hwben
        · simp only at hu
          cases hol : cacheLookup c.cache n2 with
          | some eo =>
              rw [hol] at hu
              exact (hb n2 eo hol).2.1 u hu
          | none => rw [hol] at hu; exact absurd hu (by simp [StatsEntry.empty])
        · simp only at hu
          cases hol : cacheLookup c.cache n2 with
          | some eo =>
              rw [hol] at hu
              exact (hb n2 eo hol).2.2 u hu
          | none => rw [hol] at hu; exact absurd hu (by simp [StatsEntry.empty])
      · rw [get_col_name hcol, cacheLookup_update_ne _ _ _ _ hn2] at hl2
        exact hb n2 e2 hl2

theorem csv_median_benign {D : Type} (c : Csv D) (name : String)
    (v : DataValue D) (c' : Csv D) (hb : c.CacheBenign)
    (h : Csv.median c name = Except.ok (v, c')) :
    v.isNullOrUnsigned = false ∧ c'.CacheBenign := by
  unfold Csv.median at h
  cases hl : cacheLookup c.cache name with
  | some entry =>
      cases hm : entry.median with
      | some w =>
          rw [hl] at h
          simp only [hm] at h
          obtain ⟨hv, hc⟩ := Prod.mk.injEq .. ▸ Except.ok.inj h
          subst hv hc
          exact ⟨(hb name entry hl).2.1 w hm, hb⟩
      | none =>
          rw [hl] at h
          simp only [hm] at h
          obtain ⟨col, hcol, hrest⟩ := ebind_eq_ok h
          obtain ⟨w, hw, hfin⟩ := ebind_eq_ok hrest
          obtain ⟨hv, hc⟩ := Prod.mk.injEq .. ▸ Except.ok.inj hfin
          subst hv
          have hwben := colType_median_benign hw
          refine ⟨hwben, ?_⟩
          intro n2 e2 hl2
          rw [← hc] at hl2
          simp only at hl2
          by_cases hn2 : n2 = name
          · subst hn2
            rw [get_col_name hcol, cacheLookup_update] at hl2
            cases hl2
            refine ⟨fun u hu => ?_, fun u hu => ?_, fun u hu => ?_⟩
            · simp only at hu
              cases hol : cacheLookup c.cache n2 with
              | some eo =>
                  rw [hol] at hu
                  exact (hb n2 eo hol).1 u hu
              | none => rw [hol] at hu; exact absurd hu (by simp [StatsEntry.empty])
            · simp only at hu
              cases hu
              exact hwben
            · simp only at hu
              cases hol : cacheLookup c.cache n2 with
              | some eo =>
                  rw [hol] at hu
                  exact (hb n2 eo hol).2.2 u hu
              | none => rw [hol] at hu; exact absurd hu (by simp [StatsEntry.empty])
          · rw [get_col_name hcol, cacheLookup_update_ne _ _ _ _ hn2] at hl2
            exact hb n2 e2 hl2
  | none =>
      rw [hl] at h
      simp only at h
      obtain ⟨col, hcol, hrest⟩ := ebind_eq_ok h
      obtain ⟨w, hw, hfin⟩ := ebind_eq_ok hrest
      obtain ⟨hv, hc⟩ := Prod.mk.injEq .. ▸ Except.ok.inj hfin
      subst hv
      have hwben := colType_median_benign hw
      refine ⟨hwben, ?_⟩
      intro n2 e2 hl2
      rw [← hc] at hl2
      simp only at hl2
      by_cases hn2 : n2 = name
      · subst hn2
        rw [get_col_name hcol, cacheLookup_update] at hl2
        cases hl2
        refine ⟨fun u hu => ?_, fun u hu => ?_, fun u hu => ?_⟩
        · simp only at hu
          cases hol : cacheLookup c.cache n2 with
          | some eo =>
              rw [hol] at hu
              exact (hb n2 eo hol).1 u hu
          | none => rw [hol] at hu; exact absurd hu (by simp [StatsEntry.empty])
        · simp only at hu
          cases hu
          exact hwben
        · simp only at hu
          cases hol : cacheLookup c.cache n2 with
          | some eo =>
              rw [hol] at hu
              exact (hb n2 eo hol).2.2 u hu
          | none => rw [hol] at hu; exact absurd hu (by simp [StatsEntry.empty])
      · rw [get_col_name hcol, cacheLookup_update_ne _ _ _ _ hn2] at hl2
        exact hb n2 e2 hl2


theorem csv_quantile_benign {D : Type} (c : Csv D) (name : String) (q : ℚ)
    (v : DataValue D) (c' : Csv D)
    (h : Csv.quantile c name q = Except.ok (v, c')) :
    v.isNullOrUnsigned = false := by
  unfold Csv.quantile at h
  obtain ⟨col, hcol, hrest⟩ := ebind_eq_ok h
  obtain ⟨w, hw, hfin⟩ := ebind_eq_ok hrest
  obtain ⟨hv, hc⟩ := Prod.mk.injEq .. ▸ Except.ok.inj hfin
  subst hv
  exact colType_quantile_benign hw

theorem csv_median_compute {D : Type} (c : Csv D) (name : String)
    (col : ColType D) (v : DataValue D)
    (hmiss : ∀ entry, cacheLookup c.cache name = some entry → entry.median = none)
    (hcol : c.get_col name = Except.ok col)
    (hv : col.median = Except.ok v) :
    Csv.median c name = Except.ok (v, { c with
      cache := cacheUpdate (fun e => { e with median := some v }) col.name c.cache }) := by
  unfold Csv.median
  cases hl : cacheLookup c.cache name with
  | some entry => simp [hl, hmiss entry hl, hcol, hv]
  | none => simp [hl, hcol, hv]

theorem quantileF_empty_panic :
    CsvCol.quantileF (D := Unit) ⟨"c", [], 0, none⟩ (1/2) = Except.error Err.panic := by
  have hs : (CsvCol.get_sorted linCmp (⟨"c", [], 0, none⟩ : CsvCol ℚ)).1 = [] := rfl
  rw [CsvCol.quantileF, if_neg (by norm_num)]
  simp only [hs, List.length_nil, usizeSub_zero_one]
  have e1 : (if (1:ℚ)/2 * (USIZE_MAX : ℚ) < 0 then (0:ℚ)
      else if (1:ℚ)/2 * (USIZE_MAX : ℚ) > (USIZE_MAX : ℚ) then (USIZE_MAX : ℚ)
      else (1:ℚ)/2 * (USIZE_MAX : ℚ)) = (1:ℚ)/2 * (USIZE_MAX : ℚ) := by
    rw [if_neg (by norm_num [USIZE_MAX]), if_neg (by norm_num [USIZE_MAX])]
  rw [e1, if_pos (Nat.zero_le _)]
  rfl

theorem quantileI_empty_panic :
    CsvCol.quantileI (D := Unit) ⟨"c", [], 0, none⟩ (1/2) = Except.error Err.panic := by
  have hs : (CsvCol.get_sorted linCmp (⟨"c", [], 0, none⟩ : CsvCol ℤ)).1 = [] := rfl
  rw [CsvCol.quantileI, if_neg (by norm_num)]
  simp only [hs, List.length_nil]
  rw [show f64AsUsize ((⌈(1/2 : ℚ) * ((0:ℕ) : ℚ)⌉ : ℤ) : ℚ) = 0 by
    norm_num [f64AsUsize, USIZE_MAX]]
  rw [usizeSub_zero_one, if_pos rfl]
  rfl


/-- Claim C1 (code_bug evidence at the failing inputs): on an empty numeric
column, `mean` and `median` do fail with `EmptyColumn`, but `quantile` at the
valid level `1/2` panics — it indexes into the empty sorted vector after the
wrapping `(n - 1) as f64` / `ceil(q*n) as usize - 1` computations — and
`stddev` is `todo!()`, which panics unconditionally.  Neither of the latter
two fails with `EmptyColumn` as the claim requires of all four. -/
theorem claim_C1_empty_column_code_bug :
    CsvCol.meanF (D := Unit) ⟨"c", [], 0, none⟩ = Except.error Err.emptyColumn ∧
    CsvCol.medianF (D := Unit) ⟨"c", [], 0, none⟩ = Except.error Err.emptyColumn ∧
    CsvCol.meanI (D := Unit) ⟨"c", [], 0, none⟩ = Except.error Err.emptyColumn ∧
    CsvCol.medianI (D := Unit) ⟨"c", [], 0, none⟩ = Except.error Err.emptyColumn ∧
    CsvCol.quantileF (D := Unit) ⟨"c", [], 0, none⟩ (1/2) = Except.error Err.panic ∧
    CsvCol.quantileI (D := Unit) ⟨"c", [], 0, none⟩ (1/2) = Except.error Err.panic ∧
    CsvCol.stddevF (D := Unit) ⟨"c", [], 0, none⟩ = Except.error Err.panic ∧
    CsvCol.stddevI (D := Unit) ⟨"c", [], 0, none⟩ = Except.error Err.panic :=
  ⟨rfl, rfl, rfl, rfl, quantileF_empty_panic, quantileI_empty_panic, rfl, rfl⟩

/-- Claim C2: with no forced-datetime config, type inference tries
Integer → Float → String in order, accepting the first candidate for which
every cell parses; it always succeeds in this unforced case, and the three
example cell lists produce Integer, Float and String columns respectively. -/
theorem claim_C2_inference_priority (D : Type)
    (dtF : String → String → Option D) (dtG : String → Option D)
    (cells : List String) (name : String) :
    ((∀ c ∈ cells, (parseI64 c).isSome) →
      ColType.from_values dtF dtG cells name none =
        (parseAll parseI64 cells).map (fun vs =>
          ColType.integer ⟨name, vs, vs.length, none⟩)) ∧
    ((∃ c ∈ cells, parseI64 c = none) → (∀ c ∈ cells, (parseF64 c).isSome) →
      ColType.from_values dtF dtG cells name none =
        (parseAll parseF64 cells).map (fun vs =>
          ColType.float ⟨name, vs, vs.length, none⟩)) ∧
    ((∃ c ∈ cells, parseI64 c = none) → (∃ c ∈ cells, parseF64 c = none) →
      ColType.from_values dtF dtG cells name none =
        Except.ok (ColType.string ⟨name, cells, cells.length, none⟩)) ∧
    (∃ col, ColType.from_values dtF dtG cells name none = Except.ok col) ∧
    (ColType.from_values (D := Unit) (fun _ _ => none) (fun _ => none)
        ["1", "2", "3"] "c" none =
      Except.ok (ColType.integer ⟨"c", [1, 2, 3], 3, none⟩)) ∧
    (ColType.from_values (D := Unit) (fun _ _ => none) (fun _ => none)
        ["1", "2.5", "3"] "c" none =
      Except.ok (ColType.float
        ⟨"c", [f64Value "1", f64Value "2.5", f64Value "3"], 3, none⟩)) ∧
    (ColType.from_values (D := Unit) (fun _ _ => none) (fun _ => none)
        ["1", "a", "3"] "c" none =
      Except.ok (ColType.string ⟨"c", ["1", "a", "3"], 3, none⟩)) :=
  ⟨from_values_integer dtF dtG cells name,
   fun hbad hall => from_values_float dtF dtG cells name hbad hall,
   fun hbadI hbadF => from_values_string dtF dtG cells name hbadI hbadF,
   from_values_unforced_ok dtF dtG cells name,
   by decide, by rfl, by decide⟩

/-- Witness for C2: the all-integer premise holds on `["1","2","3"]` and the
theorem's first branch then computes the Integer column. -/
theorem claim_C2_witness :
    (∀ c ∈ (["1", "2", "3"] : List String), (parseI64 c).isSome) ∧
    ColType.from_values (D := Unit) (fun _ _ => none) (fun _ => none)
        ["1", "2", "3"] "c" none =
      (parseAll parseI64 ["1", "2", "3"]).map (fun vs =>
        ColType.integer ⟨"c", vs, vs.length, none⟩) :=
  ⟨by decide,
   (claim_C2_inference_priority Unit (fun _ _ => none) (fun _ => none)
     ["1", "2", "3"] "c").1 (by decide)⟩

/-- Claim C3: for a non-empty Float column, `quantile(q)` rejects
`q < 0 ∨ q ≥ 1` with `InvalidQuantile` and otherwise returns the continuous
interpolation over the ascending-sorted values (`pos = q*(n-1)` clamped,
`lo = floor(pos)`, `hi = lo+1`, `sorted[lo]` when `hi ≥ n`, otherwise
`sorted[lo]*(1-frac) + sorted[hi]*frac`); on `[10,20,30,40]`,
`quantile(1/2)` returns `Float 25`. -/
theorem claim_C3_float_quantile (D : Type) (col : CsvCol ℚ) (q : ℚ)
    (hwf : col.WF) (hc : col.GoodCache linCmp)
    (hn : 1 ≤ col.n_elements) (hmax : col.n_elements ≤ USIZE_MAX) :
    (q < 0 ∨ 1 ≤ q →
      col.quantileF (D := D) q = Except.error (Err.invalidQuantile q)) ∧
    (0 ≤ q → q < 1 →
      col.quantileF (D := D) q = Except.ok (DataValue.float
        (specFloatQuantile (rustSortBy linCmp col.values) col.n_elements q))) ∧
    CsvCol.quantileF (D := Unit) ⟨"c", [10, 20, 30, 40], 4, none⟩ (1/2) =
      Except.ok (DataValue.float 25) := by
  refine ⟨fun hq => quantileF_invalid col q hq,
    fun h0 h1 => quantileF_main col q hwf hc hn hmax h0 h1, ?_⟩
  have h := quantileF_main (D := Unit) ⟨"c", [10, 20, 30, 40], 4, none⟩ (1/2)
    rfl (Or.inl rfl) (by norm_num) (by norm_num [USIZE_MAX]) (by norm_num) (by norm_num)
  rw [h, show rustSortBy linCmp ([10, 20, 30, 40] : List ℚ) = [10, 20, 30, 40] by decide]
  norm_num [specFloatQuantile, List.getD]

/-- Witness for C3: the concrete four-element column satisfies the
hypotheses, and the theorem's rejection branch fires at `q = 3/2`. -/
theorem claim_C3_witness :
    (CsvCol.WF (⟨"c", [10, 20, 30, 40], 4, none⟩ : CsvCol ℚ) ∧
      CsvCol.GoodCache linCmp (⟨"c", [10, 20, 30, 40], 4, none⟩ : CsvCol ℚ) ∧
      1 ≤ (4 : Nat) ∧ (4 : Nat) ≤ USIZE_MAX) ∧
    CsvCol.quantileF (D := Unit) ⟨"c", [10, 20, 30, 40], 4, none⟩ (3/2) =
      Except.error (Err.invalidQuantile (3/2)) :=
  ⟨⟨rfl, Or.inl rfl, by norm_num, by norm_num [USIZE_MAX]⟩,
   (claim_C3_float_quantile Unit ⟨"c", [10, 20, 30, 40], 4, none⟩ (3/2)
     rfl (Or.inl rfl) (by norm_num) (by norm_num [USIZE_MAX])).1
     (Or.inr (by norm_num))⟩

/-- Claim C4: for a non-empty Integer column, `quantile(q)` rejects
`q < 0 ∨ q ≥ 1` with `InvalidQuantile` and otherwise returns the
nearest-rank element `sorted[ceil(q*n) - 1]` (underflow-to-negative treated
as `0`, clamped above by `n-1`) with no interpolation; on `[10,20,30,40]`,
`quantile(1/2)` returns `Integer 20` (not the float case's `25`). -/
theorem claim_C4_integer_quantile (D : Type) (col : CsvCol ℤ) (q : ℚ)
    (hwf : col.WF) (hc : col.GoodCache linCmp)
    (hn : 1 ≤ col.n_elements) (hmax : col.n_elements ≤ USIZE_MAX) :
    (q < 0 ∨ 1 ≤ q →
      col.quantileI (D := D) q = Except.error (Err.invalidQuantile q)) ∧
    (0 ≤ q → q < 1 →
      col.quantileI (D := D) q = Except.ok (DataValue.integer
        (specIntQuantile (rustSortBy linCmp col.values) col.n_elements q))) ∧
    CsvCol.quantileI (D := Unit) ⟨"c", [10, 20, 30, 40], 4, none⟩ (1/2) =
      Except.ok (DataValue.integer 20) := by
  refine ⟨fun hq => quantileI_invalid col q hq,
    fun h0 h1 => quantileI_main col q hwf hc hn hmax h0 h1, ?_⟩
  have h := quantileI_main (D := Unit) ⟨"c", [10, 20, 30, 40], 4, none⟩ (1/2)
    rfl (Or.inl rfl) (by norm_num) (by norm_num [USIZE_MAX]) (by norm_num) (by norm_num)
  rw [h, show rustSortBy linCmp ([10, 20, 30, 40] : List ℤ) = [10, 20, 30, 40] by decide]
  norm_num [specIntQuantile, List.getD]

/-- Witness for C4: the hypotheses hold on the concrete column and the
rejection branch fires at `q = -1`. -/
theorem claim_C4_witness :
    (CsvCol.WF (⟨"c", [10, 20, 30, 40], 4, none⟩ : CsvCol ℤ) ∧
      CsvCol.GoodCache linCmp (⟨"c", [10, 20, 30, 40], 4, none⟩ : CsvCol ℤ) ∧
      1 ≤ (4 : Nat) ∧ (4 : Nat) ≤ USIZE_MAX) ∧
    CsvCol.quantileI (D := Unit) ⟨"c", [10, 20, 30, 40], 4, none⟩ (-1) =
      Except.error (Err.invalidQuantile (-1)) :=
  ⟨⟨rfl, Or.inl rfl, by norm_num, by norm_num [USIZE_MAX]⟩,
   (claim_C4_integer_quantile Unit ⟨"c", [10, 20, 30, 40], 4, none⟩ (-1)
     rfl (Or.inl rfl) (by norm_num) (by norm_num [USIZE_MAX])).1
     (Or.inl (by norm_num))⟩

/-- Counterexample to C5: on the singleton Float column `[5]` (count 1, an
odd count the claim covers), `median` does not return a Float value — the
odd-count branch computes the index `len/2 - 1 = 0 - 1`, which wraps to
`usize::MAX`, and the indexing panics. -/
theorem claim_C5_counterexample :
    CsvCol.medianF (D := Unit) ⟨"c", [5], 1, none⟩ = Except.error Err.panic :=
  medianF_singleton ⟨"c", [5], 1, none⟩ rfl (Or.inl rfl) rfl

/-- Claim C5 as amended: for an even count the Float median is the single
sorted element at index `n/2`; for an odd count of at least `3` it is
`0.5 * (sorted[n/2] + sorted[n/2 - 1])`; for the remaining odd count `n = 1`
the `n/2 - 1` subtraction wraps and the call panics instead of returning. -/
theorem claim_C5_float_median_amended (D : Type) (col : CsvCol ℚ)
    (hwf : col.WF) (hc : col.GoodCache linCmp) (hmax : col.n_elements ≤ USIZE_MAX) :
    (col.n_elements % 2 = 0 → 1 ≤ col.n_elements →
      col.medianF (D := D) = Except.ok (DataValue.float
        ((rustSortBy linCmp col.values).getD (col.n_elements / 2) 0))) ∧
    (col.n_elements % 2 = 1 → 3 ≤ col.n_elements →
      col.medianF (D := D) = Except.ok (DataValue.float
        ((1 : ℚ) / 2 * ((rustSortBy linCmp col.values).getD (col.n_elements / 2) 0 +
          (rustSortBy linCmp col.values).getD (col.n_elements / 2 - 1) 0)))) ∧
    (col.n_elements = 1 → col.medianF (D := D) = Except.error Err.panic) :=
  ⟨fun heven h1 => medianF_even col hwf hc h1 heven,
   fun hodd h3 => medianF_odd col hwf hc hmax h3 hodd,
   fun h1 => medianF_singleton col hwf hc h1⟩

/-- Witness for C5 (amended): on `[3,1,2]` (odd count `3`) the hypotheses
hold and the odd branch returns the average of the two indexed sorted
values. -/
theorem claim_C5_witness :
    (CsvCol.WF (⟨"c", [3, 1, 2], 3, none⟩ : CsvCol ℚ) ∧
      CsvCol.GoodCache linCmp (⟨"c", [3, 1, 2], 3, none⟩ : CsvCol ℚ) ∧
      (3 : Nat) ≤ USIZE_MAX ∧ (3 : Nat) % 2 = 1 ∧ 3 ≤ (3 : Nat)) ∧
    CsvCol.medianF (D := Unit) ⟨"c", [3, 1, 2], 3, none⟩ =
      Except.ok (DataValue.float
        ((1 : ℚ) / 2 * ((rustSortBy linCmp ([3, 1, 2] : List ℚ)).getD 1 0 +
          (rustSortBy linCmp ([3, 1, 2] : List ℚ)).getD 0 0))) :=
  ⟨⟨rfl, Or.inl rfl, by norm_num [USIZE_MAX], by norm_num, by norm_num⟩,
   (claim_C5_float_median_amended Unit ⟨"c", [3, 1, 2], 3, none⟩
     rfl (Or.inl rfl) (by norm_num [USIZE_MAX])).2.1 (by norm_num) (by norm_num)⟩

/-- Claim C6: for a non-empty Integer column, `median` returns
`Integer(sorted[n/2])` when the count is odd and, when the count is even,
the asymmetric `i64` combination `Integer(sorted[n/2] / 2 + sorted[n/2 - 1])`
(truncating division, the addition wrapping on `i64` overflow in the release
profile; not the arithmetic mean); whenever that sum stays within the `i64`
range the result is literally `sorted[n/2] / 2 + sorted[n/2 - 1]`.  E.g. on
`[1,2]` it returns `Integer(2/2 + 1) = Integer 2`, while on
`[i64::MAX, i64::MAX]` the overflow wraps to `Integer(-4611686018427387906)`. -/
theorem claim_C6_integer_median (D : Type) (col : CsvCol ℤ)
    (hwf : col.WF) (hmax : col.n_elements ≤ USIZE_MAX) :
    (col.n_elements % 2 = 1 →
      col.medianI (D := D) = Except.ok (DataValue.integer
        ((rustSortBy linCmp col.values).getD (col.n_elements / 2) 0))) ∧
    (col.n_elements % 2 = 0 → 1 ≤ col.n_elements →
      col.medianI (D := D) = Except.ok (DataValue.integer
        (i64Wrap (Int.tdiv ((rustSortBy linCmp col.values).getD (col.n_elements / 2) 0) 2 +
          (rustSortBy linCmp col.values).getD (col.n_elements / 2 - 1) 0)))) ∧
    (col.n_elements % 2 = 0 → 1 ≤ col.n_elements →
      -(2 ^ 63) ≤ Int.tdiv ((rustSortBy linCmp col.values).getD (col.n_elements / 2) 0) 2 +
          (rustSortBy linCmp col.values).getD (col.n_elements / 2 - 1) 0 →
      Int.tdiv ((rustSortBy linCmp col.values).getD (col.n_elements / 2) 0) 2 +
          (rustSortBy linCmp col.values).getD (col.n_elements / 2 - 1) 0 ≤ 2 ^ 63 - 1 →
      col.medianI (D := D) = Except.ok (DataValue.integer
        (Int.tdiv ((rustSortBy linCmp col.values).getD (col.n_elements / 2) 0) 2 +
          (rustSortBy linCmp col.values).getD (col.n_elements / 2 - 1) 0))) ∧
    CsvCol.medianI (D := Unit) ⟨"c", [1, 2], 2, none⟩ =
      Except.ok (DataValue.integer 2) ∧
    CsvCol.medianI (D := Unit)
        ⟨"c", [9223372036854775807, 9223372036854775807], 2, none⟩ =
      Except.ok (DataValue.integer (-4611686018427387906)) :=
  ⟨fun hodd => medianI_odd col hwf hodd,
   fun heven h1 => medianI_even col hwf hmax h1 heven,
   fun heven h1 hlo hhi => by
     rw [medianI_even col hwf hmax h1 heven, i64Wrap_eq_self hlo hhi],
   by decide, by decide⟩

/-- Witness for C6: on `[5,1,4]` (odd count) the hypotheses hold and the odd
branch returns the middle sorted element. -/
theorem claim_C6_witness :
    (CsvCol.WF (⟨"c", [5, 1, 4], 3, none⟩ : CsvCol ℤ) ∧
      (3 : Nat) ≤ USIZE_MAX ∧ (3 : Nat) % 2 = 1) ∧
    CsvCol.medianI (D := Unit) ⟨"c", [5, 1, 4], 3, none⟩ =
      Except.ok (DataValue.integer
        ((rustSortBy linCmp ([5, 1, 4] : List ℤ)).getD 1 0)) :=
  ⟨⟨rfl, by norm_num [USIZE_MAX], by norm_num⟩,
   (claim_C6_integer_median Unit ⟨"c", [5, 1, 4], 3, none⟩
     rfl (by norm_num [USIZE_MAX])).1 (by norm_num)⟩

/-- Counterexample to C7: with forced-datetime config and the unparsable
cell `"abc"`, inference fails with the generic parse error naming the cell
(`miette!("Error parsing value ...")` propagated by `let col = col?;`), not
with `InvalidColType`; the two errors are distinct. -/
theorem claim_C7_counterexample :
    ColType.from_values (D := Unit) (fun _ _ => none) (fun _ => none)
        ["abc"] "c" (some ⟨none, true⟩) = Except.error (Err.parseError "abc") ∧
    Err.parseError "abc" ≠ Err.invalidColType "c" :=
  ⟨by decide, by decide⟩

/-- Claim C7 as amended: a forced-datetime column with an unparsable cell
fails with the parse error for some cell (not `InvalidColType`); the
`InvalidColType` error is never observable on any input (the String
candidate is infallible, so the unforced cascade always succeeds). -/
theorem claim_C7_inference_errors_amended (D : Type)
    (dtF : String → String → Option D) (dtG : String → Option D)
    (cells : List String) (name : String) :
    (∀ (config : Option ColConfig) (nm : String),
      ColType.from_values dtF dtG cells name config ≠
        Except.error (Err.invalidColType nm)) ∧
    (∀ cfg : ColConfig, cfg.as_date = true →
      (∃ c ∈ cells,
        (match cfg.date_format with
         | some f => dtF c f
         | none => dtG c) = none) →
      ∃ c ∈ cells,
        ColType.from_values dtF dtG cells name (some cfg) =
          Except.error (Err.parseError c)) ∧
    (∃ col, ColType.from_values dtF dtG cells name none = Except.ok col) :=
  ⟨fun config nm => from_values_no_invalidColType dtF dtG cells name config nm,
   fun cfg hdate hbad => from_values_forced_fail dtF dtG cells name cfg hdate hbad,
   from_values_unforced_ok dtF dtG cells name⟩

/-- Witness for C7 (amended): at the concrete forced config over `["abc"]`
with parsers that reject everything, the premises hold and the failure is a
parse error for some cell of the input. -/
theorem claim_C7_witness :
    ((⟨none, true⟩ : ColConfig).as_date = true ∧
      (∃ c ∈ (["abc"] : List String),
        (match (⟨none, true⟩ : ColConfig).date_format with
         | some f => (fun (_ _ : String) => (none : Option Unit)) c f
         | none => (fun _ : String => (none : Option Unit)) c) = none)) ∧
    (∃ c ∈ (["abc"] : List String),
      ColType.from_values (D := Unit) (fun _ _ => none) (fun _ => none)
          ["abc"] "c" (some ⟨none, true⟩) = Except.error (Err.parseError c)) :=
  ⟨⟨rfl, ⟨"abc", by simp, rfl⟩⟩,
   (claim_C7_inference_errors_amended Unit (fun _ _ => none) (fun _ => none)
     ["abc"] "c").2.1 ⟨none, true⟩ rfl ⟨"abc", by simp, rfl⟩⟩

/-- Claim C8: for a freshly constructed column over a linearly ordered
element type, the sorted-snapshot accessor returns the ascending-sorted
permutation of the values (it is a total function of the model, so it cannot
panic); the state it leaves holds that copy tagged with `count`, and a
second call is served from the cache: it returns the identical sequence and
leaves the state untouched. -/
theorem claim_C8_sorted_snapshot (T : Type) [LinearOrder T] (col : CsvCol T)
    (hwf : col.WF) (hfresh : col.sorted_values = none) :
    ((col.get_sorted linCmp).1 = rustSortBy linCmp col.values ∧
      List.Sorted (fun a b => a ≤ b) (col.get_sorted linCmp).1 ∧
      ((col.get_sorted linCmp).1).Perm col.values) ∧
    ((col.get_sorted linCmp).2.sorted_values =
      some ((col.get_sorted linCmp).1, col.n_elements)) ∧
    (((col.get_sorted linCmp).2.get_sorted linCmp).1 = (col.get_sorted linCmp).1 ∧
      ((col.get_sorted linCmp).2.get_sorted linCmp).2 = (col.get_sorted linCmp).2) :=
  get_sorted_spec col hwf hfresh

/-- Witness for C8: the concrete integer column `[3,1,2]` is fresh and
well-formed; both calls return `[1,2,3]` and the cache tag is the count. -/
theorem claim_C8_witness :
    (CsvCol.WF (⟨"c", [3, 1, 2], 3, none⟩ : CsvCol ℤ) ∧
      (⟨"c", [3, 1, 2], 3, none⟩ : CsvCol ℤ).sorted_values = none) ∧
    (((⟨"c", [3, 1, 2], 3, none⟩ : CsvCol ℤ).get_sorted linCmp).1 =
        rustSortBy linCmp ([3, 1, 2] : List ℤ) ∧
      List.Sorted (fun a b : ℤ => a ≤ b)
        ((⟨"c", [3, 1, 2], 3, none⟩ : CsvCol ℤ).get_sorted linCmp).1 ∧
      (((⟨"c", [3, 1, 2], 3, none⟩ : CsvCol ℤ).get_sorted linCmp).1).Perm
        [3, 1, 2]) ∧
    (((⟨"c", [3, 1, 2], 3, none⟩ : CsvCol ℤ).get_sorted linCmp).2.sorted_values =
      some ((((⟨"c", [3, 1, 2], 3, none⟩ : CsvCol ℤ).get_sorted linCmp)).1, 3)) ∧
    (((((⟨"c", [3, 1, 2], 3, none⟩ : CsvCol ℤ).get_sorted linCmp)).2.get_sorted linCmp).1 =
        (((⟨"c", [3, 1, 2], 3, none⟩ : CsvCol ℤ).get_sorted linCmp)).1 ∧
      ((((⟨"c", [3, 1, 2], 3, none⟩ : CsvCol ℤ).get_sorted linCmp)).2.get_sorted linCmp).2 =
        (((⟨"c", [3, 1, 2], 3, none⟩ : CsvCol ℤ).get_sorted linCmp)).2) := by
  refine ⟨⟨rfl, rfl⟩, ?_⟩
  exact claim_C8_sorted_snapshot ℤ ⟨"c", [3, 1, 2], 3, none⟩ rfl rfl

/-- Counterexample to C9's stddev clause: the DataFrame exposes exactly
three statistic requests — `mean`, `median` (the two expansions of the
`statistics! {mean median}` macro) and the uncached `quantile`.  Running all
three on a fresh frame never touches the cache entry's `std_dev` slot (it
remains `None`), and the only stddev in the engine, `ColType::stddev`,
panics (`todo!()`) rather than producing a value that could be cached: there
is no first stddev request that "computes, stores a clone and returns it". -/
theorem claim_C9_counterexample :
    (Csv.mean (D := Unit) ⟨[ColType.integer ⟨"a", [1, 2], 2, none⟩], 1, 2, ["a"], []⟩ "a" >>=
      fun p1 => Csv.median p1.2 "a" >>=
      fun p2 => Except.ok ((cacheLookup p2.2.cache "a").map
        (fun e => (e.mean.isSome, e.median.isSome, e.std_dev.isSome)))) =
      Except.ok (some (true, true, false)) ∧
    ColType.stddev (ColType.integer ⟨"a", [1, 2], 2, none⟩) =
      (Except.error Err.panic : Except Err (DataValue Unit)) :=
  ⟨by decide, rfl⟩

/-- Claim C9 as amended, for the statistics the DataFrame actually exposes
(`mean` and `median`; there is no stddev request): a request served when the
cache slot is filled returns the cached clone with the frame unchanged (in
particular it does not depend on the column's values); a first request that
finds no cached slot computes on the column, stores a clone under the
column's name and returns it; a successful request leaves a state in which
the identical request returns the same value without further change; and
`quantile` never changes the frame. -/
theorem claim_C9_cache_amended (D : Type) :
    (∀ (c : Csv D) (name : String) (entry : StatsEntry D) (v : DataValue D),
      cacheLookup c.cache name = some entry → entry.mean = some v →
        Csv.mean c name = Except.ok (v, c)) ∧
    (∀ (c : Csv D) (name : String) (entry : StatsEntry D) (v : DataValue D),
      cacheLookup c.cache name = some entry → entry.median = some v →
        Csv.median c name = Except.ok (v, c)) ∧
    (∀ (c : Csv D) (name : String) (col : ColType D) (v : DataValue D),
      (∀ entry, cacheLookup c.cache name = some entry → entry.mean = none) →
      c.get_col name = Except.ok col → col.mean = Except.ok v →
        Csv.mean c name = Except.ok (v, { c with
          cache := cacheUpdate (fun e => { e with mean := some v }) col.name c.cache })) ∧
    (∀ (c : Csv D) (name : String) (col : ColType D) (v : DataValue D),
      (∀ entry, cacheLookup c.cache name = some entry → entry.median = none) →
      c.get_col name = Except.ok col → col.median = Except.ok v →
        Csv.median c name = Except.ok (v, { c with
          cache := cacheUpdate (fun e => { e with median := some v }) col.name c.cache })) ∧
    (∀ (c : Csv D) (name : String) (v : DataValue D) (c' : Csv D),
      Csv.mean c name = Except.ok (v, c') →
        (∃ entry, cacheLookup c'.cache name = some entry ∧ entry.mean = some v) ∧
          Csv.mean c' name = Except.ok (v, c')) ∧
    (∀ (c : Csv D) (name : String) (v : DataValue D) (c' : Csv D),
      Csv.median c name = Except.ok (v, c') →
        (∃ entry, cacheLookup c'.cache name = some entry ∧ entry.median = some v) ∧
          Csv.median c' name = Except.ok (v, c')) ∧
    (∀ (c : Csv D) (name : String) (q : ℚ) (v : DataValue D) (c' : Csv D),
      Csv.quantile c name q = Except.ok (v, c') → c' = c) :=
  ⟨csv_mean_hit, csv_median_hit, csv_mean_compute, csv_median_compute,
   csv_mean_idem, csv_median_idem, csv_quantile_pure⟩

/-- Witness for C9 (amended): a frame whose cache already holds a mean for
column `"a"` returns exactly that cached value with the frame unchanged. -/
theorem claim_C9_witness :
    (cacheLookup (D := Unit)
        [("a", ⟨some (DataValue.integer 7), none, none⟩)] "a" =
          some ⟨some (DataValue.integer 7), none, none⟩ ∧
      (⟨some (DataValue.integer 7), none, none⟩ : StatsEntry Unit).mean =
        some (DataValue.integer 7)) ∧
    Csv.mean (D := Unit)
        ⟨[ColType.integer ⟨"a", [1, 2], 2, none⟩], 1, 2, ["a"],
          [("a", ⟨some (DataValue.integer 7), none, none⟩)]⟩ "a" =
      Except.ok (DataValue.integer 7,
        ⟨[ColType.integer ⟨"a", [1, 2], 2, none⟩], 1, 2, ["a"],
          [("a", ⟨some (DataValue.integer 7), none, none⟩)]⟩) :=
  ⟨⟨by decide, rfl⟩,
   (claim_C9_cache_amended Unit).1
     ⟨[ColType.integer ⟨"a", [1, 2], 2, none⟩], 1, 2, ["a"],
       [("a", ⟨some (DataValue.integer 7), none, none⟩)]⟩ "a"
     ⟨some (DataValue.integer 7), none, none⟩ (DataValue.integer 7)
     (by decide) rfl⟩

/-- Claim C10: in-range indexed access on a well-formed column returns the
`DataValue` variant matching the column's variant (Float→Float,
Integer→Integer, String→String, Datetime→DateTime); every successful result
of `data_as_value`, of the column statistics, and of the DataFrame
operations (under the cache invariant, which fresh frames satisfy and the
operations preserve) is never `Null` or `Unsigned`; `stddev` never returns
a value at all. -/
theorem claim_C10_datavalue_variants (D : Type) :
    (∀ (col : ColType D) (idx : Nat), col.WF → idx < col.count →
      ∃ v, col.data_as_value idx = Except.ok v ∧ col.matchesVariant v = true) ∧
    (∀ (col : ColType D) (idx : Nat) (v : DataValue D),
      col.data_as_value idx = Except.ok v →
        col.matchesVariant v = true ∧ v.isNullOrUnsigned = false) ∧
    (∀ (col : ColType D) (v : DataValue D),
      col.mean = Except.ok v → v.isNullOrUnsigned = false) ∧
    (∀ (col : ColType D) (v : DataValue D),
      col.median = Except.ok v → v.isNullOrUnsigned = false) ∧
    (∀ (col : ColType D) (q : ℚ) (v : DataValue D),
      col.quantile q = Except.ok v → v.isNullOrUnsigned = false) ∧
    (∀ (col : ColType D) (v : DataValue D),
      col.stddev = Except.ok v → False) ∧
    (∀ (c : Csv D) (name : String) (v : DataValue D) (c' : Csv D),
      c.CacheBenign → Csv.mean c name = Except.ok (v, c') →
        v.isNullOrUnsigned = false ∧ c'.CacheBenign) ∧
    (∀ (c : Csv D) (name : String) (v : DataValue D) (c' : Csv D),
      c.CacheBenign → Csv.median c name = Except.ok (v, c') →
        v.isNullOrUnsigned = false ∧ c'.CacheBenign) ∧
    (∀ (c : Csv D) (name : String) (q : ℚ) (v : DataValue D) (c' : Csv D),
      Csv.quantile c name q = Except.ok (v, c') → v.isNullOrUnsigned = false) :=
  ⟨data_as_value_total,
   fun col idx v h => data_as_value_matches h,
   fun col v h => colType_mean_benign h,
   fun col v h => colType_median_benign h,
   fun col q v h => colType_quantile_benign h,
   fun col v h => colType_stddev_never_ok h,
   fun c name v c' hb h => csv_mean_benign c name v c' hb h,
   fun c name v c' hb h => csv_median_benign c name v c' hb h,
   fun c name q v c' h => csv_quantile_benign c name q v c' h⟩

/-- Witness for C10: on the concrete well-formed integer column, index `1`
is in range and access yields the matching `Integer` variant. -/
theorem claim_C10_witness :
    (ColType.WF (D := Unit) (ColType.integer ⟨"a", [1, 2], 2, none⟩) ∧
      1 < ColType.count (D := Unit) (ColType.integer ⟨"a", [1, 2], 2, none⟩)) ∧
    (∃ v, ColType.data_as_value (D := Unit)
        (ColType.integer ⟨"a", [1, 2], 2, none⟩) 1 = Except.ok v ∧
      ColType.matchesVariant (ColType.integer ⟨"a", [1, 2], 2, none⟩) v = true) :=
  ⟨⟨rfl, by norm_num [ColType.count]⟩,
   (claim_C10_datavalue_variants Unit).1
     (ColType.integer ⟨"a", [1, 2], 2, none⟩) 1 rfl
     (by norm_num [ColType.count])⟩

end Coala
